import Mathlib

/-!
# QTPFS path record (`rts/Sim/Path/QTPFS/Path.h`)

A shallow embedding of `QTPFS::IPath` and a verification of its mutation and
query contract.

Modelling conventions

* `float` is IEEE 754 binary32 (`QTPFS.float`): a value is NaN, an infinity
  or a finite value, given by the rational it denotes.  Comparisons are false
  on NaN; `std::min`/`std::max` select an operand and copies are exact; the
  `int` to `float` conversion and the division of the bounds check round to
  nearest, ties to even, with gradual underflow and overflow to infinity,
  and are evaluated in binary32 (no excess precision).
  The two zeros are one value and NaN payloads are ignored: no operation of
  the header distinguishes them.
* `unsigned int` values are naturals; the places where the header computes in
  32-bit unsigned arithmetic (`NumPoints()`, `NumPoints() - 1`) reduce modulo
  `2^32` explicitly.
* A member function that can hit an `assert` or index a `std::vector` outside
  its range returns `Except Fault _`; `Fault.assertion` is a failed `assert`,
  `Fault.outOfRange` is an access the C++ standard leaves undefined.
* `this` is passed explicitly as the argument `self`; a mutating member
  function returns the new value of `*this`.
* `points.size()` is below `2^32` in every state the member functions produce:
  the vector is sized only by `AllocPoints(unsigned int)`, by copying or
  moving another path, and shrunk by `RemovePoint`.  The theorems about
  indices and loops carry it as the hypothesis
  `p.points.length < UINT_RANGE`.
-/

namespace QTPFS

/-! ## Failure model -/

/-- The two ways a member function can leave the normal path. -/
inductive Fault where
  | assertion
  | outOfRange
deriving DecidableEq, Repr

deriving instance DecidableEq for Except

/-- The C `assert(c)`: continue when `c` holds, abort otherwise. -/
def assert (c : Prop) [Decidable c] : Except Fault Unit :=
  if c then .ok () else .error .assertion

/-! ## Library pieces used by the header -/

namespace std

/-- `std::min(a, b)`: `(b < a) ? b : a`. -/
def min {α : Type} [LT α] [DecidableRel (fun (a b : α) => a < b)] (a b : α) : α :=
  if b < a then b else a

/-- `std::max(a, b)`: `(a < b) ? b : a`. -/
def max {α : Type} [LT α] [DecidableRel (fun (a b : α) => a < b)] (a b : α) : α :=
  if a < b then b else a

end std

/-- The number of values of an `unsigned int`. -/
def UINT_RANGE : Nat := 4294967296

/-- The number of values of a `std::size_t`. -/
def SIZE_RANGE : Nat := 18446744073709551616

/-- Unsigned 32-bit subtraction `a - b`. -/
def usub (a b : Nat) : Nat := (a % UINT_RANGE + UINT_RANGE - b % UINT_RANGE) % UINT_RANGE

/-- The read `v[i]` of a `std::vector`. -/
def vecGet {α : Type} (v : List α) (i : Nat) : Except Fault α :=
  match v[i]? with
  | some a => .ok a
  | none => .error .outOfRange

/-- The write `v[i] = a` of a `std::vector`. -/
def vecSet {α : Type} (v : List α) (i : Nat) (a : α) : Except Fault (List α) :=
  if i < v.length then .ok (v.set i a) else .error .outOfRange

/-- The call `v.pop_back()` of a `std::vector`. -/
def popBack {α : Type} (v : List α) : Except Fault (List α) :=
  if v.length = 0 then .error .outOfRange else .ok v.dropLast

/-- The loop `for (i = start; ...; ++i) body` run for `count` iterations:
a loop `for (i = a; i < b; ++i)` whose body changes neither `i` nor `b` runs
`b - a` times (no times when `b ≤ a`). -/
def forLoop {σ : Type} (body : Nat → σ → Except Fault σ) : Nat → Nat → σ → Except Fault σ
  | 0, _, s => .ok s
  | count + 1, i, s =>
    match body i s with
    | .ok s' => forLoop body count (i + 1) s'
    | .error e => .error e

/-! ## The type `float` -/

/-- A value of the C type `float` (IEEE 754 binary32): NaN, an infinity, or a
finite value given by the rational it denotes. -/
inductive float where
  | nan
  | ninf
  | fin (q : ℚ)
  | pinf
deriving DecidableEq, Repr

namespace float

instance (n : Nat) : OfNat float n := ⟨.fin n⟩

/-- Unary minus. -/
def neg : float → float
  | .nan => .nan
  | .ninf => .pinf
  | .fin q => .fin (-q)
  | .pinf => .ninf

instance : Neg float := ⟨neg⟩

/-- The comparison `a < b`: false when an operand is NaN. -/
def blt : float → float → Bool
  | .nan, _ => false
  | _, .nan => false
  | .ninf, .ninf => false
  | .ninf, _ => true
  | .fin _, .ninf => false
  | .fin a, .fin b => decide (a < b)
  | .fin _, .pinf => true
  | .pinf, _ => false

/-- The comparison `a <= b`: false when an operand is NaN. -/
def ble : float → float → Bool
  | .nan, _ => false
  | _, .nan => false
  | .ninf, _ => true
  | .fin _, .ninf => false
  | .fin a, .fin b => decide (a ≤ b)
  | .fin _, .pinf => true
  | .pinf, .pinf => true
  | .pinf, _ => false

instance : LT float := ⟨fun a b => blt a b = true⟩
instance : LE float := ⟨fun a b => ble a b = true⟩
instance : DecidableRel (fun (a b : float) => a < b) :=
  fun a b => inferInstanceAs (Decidable (blt a b = true))
instance : DecidableRel (fun (a b : float) => a ≤ b) :=
  fun a b => inferInstanceAs (Decidable (ble a b = true))

/-- Round to nearest integer, ties to even. -/
def rne (r : ℚ) : Int :=
  if r - ⌊r⌋ < 1 / 2 then ⌊r⌋
  else if 1 / 2 < r - ⌊r⌋ then ⌊r⌋ + 1
  else if ⌊r⌋ % 2 = 0 then ⌊r⌋ else ⌊r⌋ + 1

/-- The spacing of binary32 values around `a ≥ 0`: the least `u` among
`u0, 2 u0, 4 u0, ...` (at most `fuel` doublings) with `a < 2^24 u`. -/
def ulpFrom (a : ℚ) : Nat → ℚ → ℚ
  | 0, u => u
  | fuel + 1, u => if a < 16777216 * u then u else ulpFrom a fuel (2 * u)

/-- The smallest positive binary32 value, `2^-149`. -/
def minSubnormal : ℚ := 1 / 713623846352979940529142984724747568191373312

/-- The least power of two above all finite binary32 values, `2^128`. -/
def overflowBound : ℚ := 340282366920938463463374607431768211456

/-- Rounding of a rational `a ≥ 0` to binary32, to nearest, ties to even. -/
def roundNonneg (a : ℚ) : float :=
  if overflowBound ≤ (rne (a / ulpFrom a 253 minSubnormal) : ℚ) * ulpFrom a 253 minSubnormal then
    .pinf
  else .fin ((rne (a / ulpFrom a 253 minSubnormal) : ℚ) * ulpFrom a 253 minSubnormal)

/-- Rounding of a rational to binary32. -/
def round (q : ℚ) : float :=
  if q < 0 then neg (roundNonneg (-q)) else roundNonneg q

/-- The conversion of an `int` to `float`. -/
def ofInt (n : Int) : float := round n

/-- The division `a / b`. -/
def div : float → float → float
  | .nan, _ => .nan
  | _, .nan => .nan
  | .fin a, .fin b =>
    if b = 0 then (if a = 0 then .nan else if 0 < a then .pinf else .ninf) else round (a / b)
  | .fin _, .pinf => .fin 0
  | .fin _, .ninf => .fin 0
  | .pinf, .fin b => if 0 ≤ b then .pinf else .ninf
  | .ninf, .fin b => if 0 ≤ b then .ninf else .pinf
  | .pinf, _ => .nan
  | .ninf, _ => .nan

instance : Div float := ⟨div⟩

end float

/-! ## Data model -/

/-- Modelled from the spec: `float3` (`System/float3.h` is not among the
sources); a 3D position whose default value is the origin. -/
structure float3 where
  x : float := 0
  y : float := 0
  z : float := 0
deriving DecidableEq, Repr

/-- Modelled from the spec: `float2` (`System/float3.h` is not among the
sources); the 2D net point of a node. -/
structure float2 where
  x : float := 0
  y : float := 0
deriving DecidableEq, Repr

/-- `IPath::PathNodeData`. -/
structure PathNodeData where
  nodeId : Nat := 0
  netPoint : float2 := {}
  pathPointIndex : Int := -1
  xmin : Int := 0
  zmin : Int := 0
  xmax : Int := 0
  zmax : Int := 0
deriving DecidableEq, Repr

/-- `mapDims` of `Map/ReadMap.h`: the map extent in grid squares. -/
structure MapDims where
  mapx : Int
  mapy : Int
deriving DecidableEq, Repr

/-- The engine globals the header reads: `SQUARE_SIZE`, `mapDims` and
`moveDefHandler.GetNumMoveDefs()`.  They are declared outside the sources and
are parameters here. -/
structure Globals where
  SQUARE_SIZE : Int
  mapDims : MapDims
  numMoveDefs : Nat
deriving DecidableEq, Repr

/-- `QTPFS::IPath`, with the member initialisers of the header as defaults.
`owner` is an opaque object handle, `searchTime` an opaque timestamp. -/
structure IPath where
  pathID : Nat := 0
  pathType : Int := 0
  nextPointIndex : Nat := 0
  numPathUpdates : Nat := 0
  hash : Nat := ((-1 : Int) % (SIZE_RANGE : Int)).toNat
  virtualHash : Nat := ((-1 : Int) % (SIZE_RANGE : Int)).toNat
  radius : float := 0
  synced : Bool := true
  haveFullPath : Bool := true
  havePartialPath : Bool := false
  boundingBoxOverride : Bool := false
  points : List float3 := []
  nodes : List PathNodeData := []
  boundingBoxMins : float3 := {}
  boundingBoxMaxs : float3 := {}
  owner : Option Nat := none
  searchTime : Int := 0
deriving DecidableEq, Repr

/-! ## Member functions -/

/-- `IPath::operator=(const IPath&)` for `this != &other`. -/
def copyAssign (self other : IPath) : IPath :=
  { self with
    pathID := other.pathID
    pathType := other.pathType
    nextPointIndex := other.nextPointIndex
    numPathUpdates := other.numPathUpdates
    hash := other.hash
    virtualHash := other.virtualHash
    radius := other.radius
    synced := other.synced
    haveFullPath := other.haveFullPath
    havePartialPath := other.havePartialPath
    boundingBoxOverride := other.boundingBoxOverride
    points := other.points
    nodes := other.nodes
    boundingBoxMins := other.boundingBoxMins
    boundingBoxMaxs := other.boundingBoxMaxs
    owner := other.owner
    searchTime := other.searchTime }

/-- `IPath::IPath(const IPath&)`: `*this = other` on a fresh object. -/
def copyConstruct (other : IPath) : IPath := copyAssign {} other

/-- `IPath::operator=(IPath&&)` for `this != &other`; returns the new `*this`
and the new `other`.  `std::move` of a vector leaves the source vector
empty; no other member of `other` is written. -/
def moveAssign (self other : IPath) : IPath × IPath :=
  ({ self with
     pathID := other.pathID
     pathType := other.pathType
     nextPointIndex := other.nextPointIndex
     numPathUpdates := other.numPathUpdates
     hash := other.hash
     virtualHash := other.virtualHash
     radius := other.radius
     synced := other.synced
     haveFullPath := other.haveFullPath
     havePartialPath := other.havePartialPath
     boundingBoxOverride := other.boundingBoxOverride
     points := other.points
     nodes := other.nodes
     boundingBoxMins := other.boundingBoxMins
     boundingBoxMaxs := other.boundingBoxMaxs
     owner := other.owner
     searchTime := other.searchTime },
   { other with points := [], nodes := [] })

/-- `IPath::IPath(IPath&&)`: `*this = std::move(other)` on a fresh object. -/
def moveConstruct (other : IPath) : IPath × IPath := moveAssign {} other

/-- `IPath::GetID`. -/
def GetID (self : IPath) : Nat := self.pathID

/-- `IPath::GetHash`. -/
def GetHash (self : IPath) : Nat := self.hash

/-- `IPath::GetVirtualHash`. -/
def GetVirtualHash (self : IPath) : Nat := self.virtualHash

/-- `IPath::GetPathType`. -/
def GetPathType (self : IPath) : Int := self.pathType

/-- `IPath::IsBoundingBoxOverriden`. -/
def IsBoundingBoxOverriden (self : IPath) : Bool := self.boundingBoxOverride

/-- `IPath::GetBoundingBoxMins`. -/
def GetBoundingBoxMins (self : IPath) : float3 := self.boundingBoxMins

/-- `IPath::GetBoundingBoxMaxs`. -/
def GetBoundingBoxMaxs (self : IPath) : float3 := self.boundingBoxMaxs

/-- `IPath::NumPoints`: `points.size()` converted to `unsigned int`. -/
def NumPoints (self : IPath) : Nat := self.points.length % UINT_RANGE

/-- `IPath::checkPointInBounds`.  The `int` operands `SQUARE_SIZE`,
`mapDims.mapx` and `mapDims.mapy` are converted to `float`. -/
def checkPointInBounds (g : Globals) (p : float3) : Except Fault Unit := do
  assert (p.x ≥ 0)
  assert (p.z ≥ 0)
  assert (p.x / float.ofInt g.SQUARE_SIZE ≤ float.ofInt g.mapDims.mapx)
  assert (p.z / float.ofInt g.SQUARE_SIZE ≤ float.ofInt g.mapDims.mapy)

/-- The body of the loop of `IPath::SetBoundingBox()`. -/
def SetBoundingBox.body (n : Nat) (self : IPath) : Except Fault IPath := do
  let pt ← vecGet self.points n
  pure { self with
    boundingBoxMins :=
      { self.boundingBoxMins with
        x := std.min self.boundingBoxMins.x pt.x
        z := std.min self.boundingBoxMins.z pt.z }
    boundingBoxMaxs :=
      { self.boundingBoxMaxs with
        x := std.max self.boundingBoxMaxs.x pt.x
        z := std.max self.boundingBoxMaxs.z pt.z } }

/-- `IPath::SetBoundingBox()`. -/
def SetBoundingBox (g : Globals) (self : IPath) : Except Fault IPath := do
  let s0 : IPath :=
    { self with
      boundingBoxMins := { self.boundingBoxMins with x := 1000000, z := 1000000 }
      boundingBoxMaxs := { self.boundingBoxMaxs with x := -1000000, z := -1000000 } }
  let s1 ← forLoop SetBoundingBox.body s0.points.length 0 s0
  let s2 : IPath := { s1 with boundingBoxOverride := false }
  checkPointInBounds g s2.boundingBoxMins
  checkPointInBounds g s2.boundingBoxMaxs
  pure s2

/-- `IPath::SetBoundingBox(float3 mins, float3 maxs)`. -/
def SetBoundingBoxTo (g : Globals) (self : IPath) (mins maxs : float3) : Except Fault IPath := do
  let s : IPath :=
    { self with boundingBoxMins := mins, boundingBoxMaxs := maxs, boundingBoxOverride := true }
  checkPointInBounds g s.boundingBoxMins
  checkPointInBounds g s.boundingBoxMaxs
  pure s

/-- `IPath::SetPoint`. -/
def SetPoint (g : Globals) (self : IPath) (i : Nat) (p : float3) : Except Fault IPath := do
  checkPointInBounds g p
  let pts ← vecSet self.points (std.min i (usub (NumPoints self) 1)) p
  pure { self with points := pts }

/-- `IPath::GetPoint`. -/
def GetPoint (self : IPath) (i : Nat) : Except Fault float3 :=
  vecGet self.points (std.min i (usub (NumPoints self) 1))

/-- The body of the loop of `IPath::RemovePoint`: `points[i] = points[i+1]`. -/
def RemovePoint.body (i : Nat) (pts : List float3) : Except Fault (List float3) := do
  let v ← vecGet pts (i + 1)
  vecSet pts i v

/-- `IPath::RemovePoint`. -/
def RemovePoint (self : IPath) (index : Nat) : Except Fault IPath := do
  let start := std.min index (usub (NumPoints self) 1)
  let end_ := usub (NumPoints self) 1
  let pts ← forLoop RemovePoint.body (end_ - start) start self.points
  let pts ← popBack pts
  pure { self with points := pts }

/-- `IPath::SetNode`. -/
def SetNode (self : IPath) (i : Nat) (nodeId : Nat) (netpoint : float2) (pointIdx : Int) :
    Except Fault IPath := do
  let n ← vecGet self.nodes i
  let nodes ← vecSet self.nodes i { n with netPoint := netpoint }
  let n ← vecGet nodes i
  let nodes ← vecSet nodes i { n with nodeId := nodeId }
  let n ← vecGet nodes i
  let nodes ← vecSet nodes i { n with pathPointIndex := pointIdx }
  pure { self with nodes := nodes }

/-- `IPath::SetNodeBoundary`. -/
def SetNodeBoundary (self : IPath) (i : Nat) (xmin zmin xmax zmax : Int) :
    Except Fault IPath := do
  let n ← vecGet self.nodes i
  let nodes ← vecSet self.nodes i { n with xmin := xmin }
  let n ← vecGet nodes i
  let nodes ← vecSet nodes i { n with zmin := zmin }
  let n ← vecGet nodes i
  let nodes ← vecSet nodes i { n with xmax := xmax }
  let n ← vecGet nodes i
  let nodes ← vecSet nodes i { n with zmax := zmax }
  pure { self with nodes := nodes }

/-- `IPath::GetNode`. -/
def GetNode (self : IPath) (i : Nat) : Except Fault PathNodeData :=
  vecGet self.nodes i

/-- `IPath::SetSourcePoint`; the bounds check is commented out in the header. -/
def SetSourcePoint (self : IPath) (p : float3) : Except Fault IPath := do
  assert (self.points.length ≥ 2)
  let pts ← vecSet self.points 0 p
  pure { self with points := pts }

/-- `IPath::SetTargetPoint`; the bounds check is commented out in the header.
`points.size() - 1` is computed in `std::size_t`. -/
def SetTargetPoint (self : IPath) (p : float3) : Except Fault IPath := do
  assert (self.points.length ≥ 2)
  let pts ← vecSet self.points ((self.points.length + SIZE_RANGE - 1) % SIZE_RANGE) p
  pure { self with points := pts }

/-- `IPath::GetSourcePoint`. -/
def GetSourcePoint (self : IPath) : Except Fault float3 :=
  vecGet self.points 0

/-- `IPath::GetTargetPoint`. -/
def GetTargetPoint (self : IPath) : Except Fault float3 :=
  vecGet self.points ((self.points.length + SIZE_RANGE - 1) % SIZE_RANGE)

/-- `IPath::AllocPoints`: `points.clear(); points.resize(n)`. -/
def AllocPoints (self : IPath) (n : Nat) : IPath :=
  { self with points := List.replicate n {} }

/-- The body of the loop of `IPath::CopyPoints`: `points[n] = p.GetPoint(n)`. -/
def CopyPoints.body (p : IPath) (n : Nat) (self : IPath) : Except Fault IPath := do
  let v ← GetPoint p n
  let pts ← vecSet self.points n v
  pure { self with points := pts }

/-- `IPath::CopyPoints` for `this != &p`. -/
def CopyPoints (self p : IPath) : Except Fault IPath :=
  forLoop (CopyPoints.body p) (NumPoints p) 0 (AllocPoints self (NumPoints p))

/-- `IPath::AllocNodes`: `nodes.clear(); nodes.resize(n)`. -/
def AllocNodes (self : IPath) (n : Nat) : IPath :=
  { self with nodes := List.replicate n {} }

/-- The body of the loop of `IPath::CopyNodes`: `nodes[n] = p.GetNode(n)`. -/
def CopyNodes.body (p : IPath) (n : Nat) (self : IPath) : Except Fault IPath := do
  let v ← GetNode p n
  let nodes ← vecSet self.nodes n v
  pure { self with nodes := nodes }

/-- `IPath::CopyNodes` for `this != &p`; `AllocNodes` takes an `unsigned int`. -/
def CopyNodes (self p : IPath) : Except Fault IPath :=
  forLoop (CopyNodes.body p) p.nodes.length 0 (AllocNodes self (p.nodes.length % UINT_RANGE))

/-- `IPath::SetPathType`.  The asserted expression is the member `pathType`;
the argument `newPathType` is stored afterwards.  `GetNumMoveDefs()` is
declared outside the sources: its value is the parameter `numMoveDefs`, and
the comparison is taken on the integers. -/
def SetPathType (g : Globals) (self : IPath) (newPathType : Int) : Except Fault IPath := do
  assert (self.pathType < (g.numMoveDefs : Int))
  pure { self with pathType := newPathType }

/-! ## Concrete inputs -/

/-- A map of 100 x 100 squares of 8 world units. -/
def smallMap : Globals :=
  { SQUARE_SIZE := 8, mapDims := { mapx := 100, mapy := 100 }, numMoveDefs := 4 }

/-- A map of 1000000 x 1000000 squares of 8 world units. -/
def hugeMap : Globals :=
  { SQUARE_SIZE := 8, mapDims := { mapx := 1000000, mapy := 1000000 }, numMoveDefs := 4 }

/-- A path with the three points `(1,7,2)`, `(5,7,9)`, `(3,7,0)`. -/
def threePoints : IPath :=
  { points := [⟨1, 7, 2⟩, ⟨5, 7, 9⟩, ⟨3, 7, 0⟩] }

/-- A path with the two points `(8,0,8)`, `(16,0,24)`. -/
def twoPoints : IPath :=
  { points := [⟨8, 0, 8⟩, ⟨16, 0, 24⟩] }

/-- A path with the single point `(2000000,0,2000000)`. -/
def farPath : IPath :=
  { points := [⟨2000000, 0, 2000000⟩] }

/-- A path in use: an id, a hash, a radius, two points, one node and a bounding
box. -/
def usedPath : IPath :=
  { pathID := 7, pathType := 2, nextPointIndex := 1, numPathUpdates := 3, hash := 42,
    virtualHash := 43, radius := 5, synced := false, haveFullPath := false,
    havePartialPath := true, boundingBoxOverride := true,
    points := [⟨8, 0, 8⟩, ⟨16, 0, 24⟩], nodes := [{ nodeId := 11 }],
    boundingBoxMins := ⟨8, 0, 8⟩, boundingBoxMaxs := ⟨16, 0, 24⟩, owner := some 1,
    searchTime := 99 }

/-- A path with the two nodes 11 and 12 and no points. -/
def twoNodes : IPath :=
  { nodes := [{ nodeId := 11 }, { nodeId := 12 }] }

/-- The path `twoPoints` with the box `SetBoundingBox()` computes for it. -/
def twoPointsBoxed : IPath :=
  { points := [⟨8, 0, 8⟩, ⟨16, 0, 24⟩],
    boundingBoxMins := ⟨8, 0, 8⟩, boundingBoxMaxs := ⟨16, 0, 24⟩ }

/-- The path `twoPointsBoxed` after `SetPoint(1, (40,0,40))`. -/
def stalePath : IPath :=
  { points := [⟨8, 0, 8⟩, ⟨40, 0, 40⟩],
    boundingBoxMins := ⟨8, 0, 8⟩, boundingBoxMaxs := ⟨16, 0, 24⟩ }

/-- A map whose extent 16777219 is not a `float`: it converts to 16777220. -/
def roundedMap : Globals :=
  { SQUARE_SIZE := 8, mapDims := { mapx := 16777219, mapy := 16777219 }, numMoveDefs := 4 }

/-- A map of extent 0. -/
def flatMap : Globals :=
  { SQUARE_SIZE := 8, mapDims := { mapx := 0, mapy := 0 }, numMoveDefs := 4 }

/-- A path with the two points `(NaN,0,NaN)`, `(16,0,24)`. -/
def nanPath : IPath :=
  { points := [⟨.nan, 0, .nan⟩, ⟨16, 0, 24⟩] }

/-- A path with the two points `(5,0,5)`, `(2000000,0,2000000)`. -/
def mixedPath : IPath :=
  { points := [⟨5, 0, 5⟩, ⟨2000000, 0, 2000000⟩] }

/-! ## Basic facts about the library pieces -/

theorem std_min_nat (a b : Nat) : std.min a b = Min.min a b := by
  unfold std.min
  split <;> omega

theorem usub_one_of_pos {L : Nat} (h0 : 0 < L) (h : L < UINT_RANGE) :
    usub (L % UINT_RANGE) 1 = L - 1 := by
  unfold usub UINT_RANGE at *
  omega

theorem NumPoints_of_lt (p : IPath) (h : p.points.length < UINT_RANGE) :
    NumPoints p = p.points.length :=
  Nat.mod_eq_of_lt h

/-- On a non-empty path whose size fits an `unsigned int`, the index
`std::min(i, NumPoints() - 1)` is `min i (size - 1)`. -/
theorem clamp_eq (p : IPath) (i : Nat) (h0 : 0 < p.points.length)
    (h : p.points.length < UINT_RANGE) :
    std.min i (usub (NumPoints p) 1) = Min.min i (p.points.length - 1) := by
  rw [std_min_nat, NumPoints, usub_one_of_pos h0 h]

theorem vecGet_eq_ok_iff {α : Type} (v : List α) (i : Nat) (a : α) :
    vecGet v i = .ok a ↔ v[i]? = some a := by
  unfold vecGet
  cases h : v[i]? <;> simp

theorem vecGet_of_lt {α : Type} (v : List α) (i : Nat) (h : i < v.length) :
    vecGet v i = .ok (v.get ⟨i, h⟩) := by
  rw [vecGet_eq_ok_iff]
  simp [List.getElem?_eq_getElem h]

theorem vecGet_of_ge {α : Type} (v : List α) (i : Nat) (h : v.length ≤ i) :
    vecGet v i = .error .outOfRange := by
  unfold vecGet
  rw [List.getElem?_eq_none h]

theorem vecSet_of_lt {α : Type} (v : List α) (i : Nat) (a : α) (h : i < v.length) :
    vecSet v i a = .ok (v.set i a) := by
  unfold vecSet
  rw [if_pos h]

theorem assert_eq_ok_iff (c : Prop) [Decidable c] : assert c = .ok () ↔ c := by
  unfold assert
  split <;> simp [*]

theorem assert_eq_error_iff (c : Prop) [Decidable c] (f : Fault) :
    assert c = .error f ↔ ¬ c ∧ f = .assertion := by
  unfold assert
  split
  · simp [*]
  · simp only [Except.error.injEq, not_false_eq_true, true_and, *]
    exact eq_comm

/-! ## Facts about `float` -/

namespace float

theorem lt_def (a b : float) : a < b ↔ blt a b = true := Iff.rfl

theorem le_def (a b : float) : a ≤ b ↔ ble a b = true := Iff.rfl

theorem zero_eq : (0 : float) = .fin 0 := by
  show float.fin ((0 : Nat) : ℚ) = .fin 0
  rw [Nat.cast_zero]

theorem fin_le_fin (a b : ℚ) : float.fin a ≤ float.fin b ↔ a ≤ b := by
  simp [le_def, ble]

theorem fin_lt_fin (a b : ℚ) : float.fin a < float.fin b ↔ a < b := by
  simp [lt_def, blt]

theorem ne_nan_of_le_left {a b : float} (h : a ≤ b) : a ≠ .nan := by
  rintro rfl
  simp [le_def, ble] at h

theorem ne_nan_of_le_right {a b : float} (h : a ≤ b) : b ≠ .nan := by
  rintro rfl
  cases a <;> simp [le_def, ble] at h

theorem ne_nan_of_lt_left {a b : float} (h : a < b) : a ≠ .nan := by
  rintro rfl
  simp [lt_def, blt] at h

theorem ne_nan_of_lt_right {a b : float} (h : a < b) : b ≠ .nan := by
  rintro rfl
  cases a <;> simp [lt_def, blt] at h

theorem le_refl_of_ne_nan {a : float} (h : a ≠ .nan) : a ≤ a := by
  cases a <;> simp [le_def, ble] at h ⊢

theorem le_trans' {a b c : float} (h1 : a ≤ b) (h2 : b ≤ c) : a ≤ c := by
  cases a <;> cases b <;> cases c <;> simp [le_def, ble] at h1 h2 ⊢
  exact le_trans h1 h2

theorem le_of_lt' {a b : float} (h : a < b) : a ≤ b := by
  cases a <;> cases b <;> simp [le_def, lt_def, ble, blt] at h ⊢
  exact le_of_lt h

theorem le_of_not_lt' {a b : float} (ha : a ≠ .nan) (hb : b ≠ .nan) (h : ¬ b < a) : a ≤ b := by
  cases a <;> cases b <;> simp [le_def, lt_def, ble, blt] at ha hb h ⊢
  exact h

theorem lt_of_not_le' {a b : float} (ha : a ≠ .nan) (hb : b ≠ .nan) (h : ¬ a ≤ b) : b < a := by
  cases a <;> cases b <;> simp [le_def, lt_def, ble, blt] at ha hb h ⊢
  exact h

theorem not_le_of_lt' {a b : float} (h : b < a) : ¬ a ≤ b := by
  cases a <;> cases b <;> simp [le_def, lt_def, ble, blt] at h ⊢
  exact h

theorem le_antisymm' {a b : float} (h1 : a ≤ b) (h2 : b ≤ a) : a = b := by
  cases a <;> cases b <;> simp [le_def, ble] at h1 h2 ⊢
  exact le_antisymm h1 h2

theorem neg_nan : -(float.nan) = float.nan := rfl

theorem neg_ninf : -(float.ninf) = float.pinf := rfl

theorem neg_pinf : -(float.pinf) = float.ninf := rfl

theorem neg_fin (q : ℚ) : -(float.fin q) = float.fin (-q) := rfl

theorem neg_le_neg' {a b : float} (h : a ≤ b) : -b ≤ -a := by
  cases a <;> cases b <;>
    simp [le_def, ble, neg_nan, neg_ninf, neg_pinf, neg_fin] at h ⊢
  exact h

theorem neg_le_zero {a : float} (h : (0 : float) ≤ a) : -a ≤ 0 := by
  rw [zero_eq] at h ⊢
  cases a <;> simp [le_def, ble, neg_nan, neg_ninf, neg_pinf, neg_fin] at h ⊢
  exact h

/-! ### Rounding -/

theorem rne_bounds (r : ℚ) : (rne r : ℚ) - 1 / 2 ≤ r ∧ r ≤ (rne r : ℚ) + 1 / 2 := by
  have h1 := Int.floor_le r
  have h2 := Int.lt_floor_add_one r
  unfold rne
  split_ifs <;> push_cast <;> constructor <;> linarith

theorem rne_mono {r s : ℚ} (h : r ≤ s) : rne r ≤ rne s := by
  by_contra hcon
  have hlt : rne s + 1 ≤ rne r := by omega
  have hq : ((rne s : ℤ) : ℚ) + 1 ≤ (rne r : ℚ) := by exact_mod_cast hlt
  have hr := (rne_bounds r).1
  have hs := (rne_bounds s).2
  have hrs : r = s := le_antisymm h (by linarith)
  rw [hrs] at hcon
  exact hcon (le_refl _)

theorem rne_intCast (k : ℤ) : rne (k : ℚ) = k := by
  simp [rne]

theorem ulpFrom_pos (a : ℚ) : ∀ (fuel : Nat) (u : ℚ), 0 < u → 0 < ulpFrom a fuel u := by
  intro fuel
  induction fuel with
  | zero => intro u hu; exact hu
  | succ fuel ih =>
    intro u hu
    unfold ulpFrom
    split
    · exact hu
    · exact ih (2 * u) (by linarith)

/-- A value at or above `2^23 u` rounds to a value at or above `2^23 u`. -/
theorem roundAt_lower (a : ℚ) : ∀ (fuel : Nat) (u : ℚ), 0 < u → 8388608 * u ≤ a →
    8388608 * u ≤ (rne (a / ulpFrom a fuel u) : ℚ) * ulpFrom a fuel u := by
  have base : ∀ u : ℚ, 0 < u → 8388608 * u ≤ a → 8388608 * u ≤ (rne (a / u) : ℚ) * u := by
    intro u hu ha
    have h1 : ((8388608 : ℤ) : ℚ) ≤ a / u := by
      rw [le_div_iff₀ hu]
      exact_mod_cast ha
    have h2 := rne_mono h1
    rw [rne_intCast] at h2
    have h3 : (8388608 : ℚ) ≤ (rne (a / u) : ℚ) := by exact_mod_cast h2
    exact mul_le_mul_of_nonneg_right h3 (le_of_lt hu)
  intro fuel
  induction fuel with
  | zero => intro u hu ha; exact base u hu ha
  | succ fuel ih =>
    intro u hu ha
    unfold ulpFrom
    split
    · exact base u hu ha
    · next hge =>
      have := ih (2 * u) (by linarith) (by linarith [not_lt.mp hge])
      linarith

/-- Rounding on the binary32 grid is monotone on the non-negative
rationals. -/
theorem roundAt_mono {a b : ℚ} (hab : a ≤ b) : ∀ (fuel : Nat) (u : ℚ), 0 < u →
    (rne (a / ulpFrom a fuel u) : ℚ) * ulpFrom a fuel u ≤
      (rne (b / ulpFrom b fuel u) : ℚ) * ulpFrom b fuel u := by
  have same : ∀ u : ℚ, 0 < u → (rne (a / u) : ℚ) * u ≤ (rne (b / u) : ℚ) * u := by
    intro u hu
    have h1 : a / u ≤ b / u := div_le_div_of_nonneg_right hab (le_of_lt hu)
    have h2 : (rne (a / u) : ℚ) ≤ (rne (b / u) : ℚ) := by exact_mod_cast rne_mono h1
    exact mul_le_mul_of_nonneg_right h2 (le_of_lt hu)
  intro fuel
  induction fuel with
  | zero => intro u hu; exact same u hu
  | succ fuel ih =>
    intro u hu
    by_cases ha : a < 16777216 * u
    · by_cases hb : b < 16777216 * u
      · simp only [ulpFrom, if_pos ha, if_pos hb]
        exact same u hu
      · simp only [ulpFrom, if_pos ha, if_neg hb]
        have h1 : a / u ≤ ((16777216 : ℤ) : ℚ) := by
          rw [div_le_iff₀ hu]
          push_cast
          exact le_of_lt ha
        have h2 := rne_mono h1
        rw [rne_intCast] at h2
        have h3 : (rne (a / u) : ℚ) ≤ 16777216 := by exact_mod_cast h2
        have h4 : (rne (a / u) : ℚ) * u ≤ 16777216 * u :=
          mul_le_mul_of_nonneg_right h3 (le_of_lt hu)
        have h5 := roundAt_lower b fuel (2 * u) (by linarith) (by linarith [not_lt.mp hb])
        linarith
    · have hb : ¬ b < 16777216 * u := fun h => ha (lt_of_le_of_lt hab h)
      simp only [ulpFrom, if_neg ha, if_neg hb]
      exact ih (2 * u) (by linarith)

theorem minSubnormal_pos : 0 < minSubnormal := by
  unfold minSubnormal
  norm_num

theorem roundNonneg_ne_nan (a : ℚ) : roundNonneg a ≠ .nan := by
  unfold roundNonneg
  split <;> simp

theorem roundNonneg_mono {a b : ℚ} (hab : a ≤ b) : roundNonneg a ≤ roundNonneg b := by
  have h := roundAt_mono hab 253 minSubnormal minSubnormal_pos
  unfold roundNonneg
  split_ifs with h1 h2 h2
  · simp [le_def, ble]
  · exact absurd (le_trans h1 h) h2
  · simp [le_def, ble]
  · rw [fin_le_fin]
    exact h

theorem zero_le_roundNonneg {a : ℚ} (ha : 0 ≤ a) : (0 : float) ≤ roundNonneg a := by
  have hu := ulpFrom_pos a 253 minSubnormal minSubnormal_pos
  have h1 : (0 : ℚ) ≤ a / ulpFrom a 253 minSubnormal := div_nonneg ha (le_of_lt hu)
  have h2 := rne_mono (show ((0 : ℤ) : ℚ) ≤ a / ulpFrom a 253 minSubnormal by exact_mod_cast h1)
  rw [rne_intCast] at h2
  have h3 : (0 : ℚ) ≤ (rne (a / ulpFrom a 253 minSubnormal) : ℚ) := by exact_mod_cast h2
  rw [zero_eq]
  unfold roundNonneg
  split
  · simp [le_def, ble]
  · rw [fin_le_fin]
    exact mul_nonneg h3 (le_of_lt hu)

theorem round_ne_nan (q : ℚ) : round q ≠ .nan := by
  unfold round
  split
  · have h := roundNonneg_ne_nan (-q)
    cases hr : roundNonneg (-q) <;> simp [neg, hr] at h ⊢
  · exact roundNonneg_ne_nan q

/-- Rounding to binary32 is monotone. -/
theorem round_mono {a b : ℚ} (hab : a ≤ b) : round a ≤ round b := by
  unfold round
  by_cases ha : a < 0
  · by_cases hb : b < 0
    · rw [if_pos ha, if_pos hb]
      exact neg_le_neg' (roundNonneg_mono (by linarith))
    · rw [if_pos ha, if_neg hb]
      exact le_trans' (neg_le_zero (zero_le_roundNonneg (by linarith)))
        (zero_le_roundNonneg (not_lt.mp hb))
  · have hb : ¬ b < 0 := fun h => ha (lt_of_le_of_lt hab h)
    rw [if_neg ha, if_neg hb]
    exact roundNonneg_mono hab

theorem round_zero : round 0 = .fin 0 := by
  simp [round, roundNonneg, rne, overflowBound]

theorem zero_le_round {q : ℚ} (h : 0 ≤ q) : (0 : float) ≤ round q := by
  have := round_mono h
  rw [round_zero] at this
  rw [zero_eq]
  exact this

theorem round_le_zero {q : ℚ} (h : q ≤ 0) : round q ≤ (0 : float) := by
  have := round_mono h
  rw [round_zero] at this
  rw [zero_eq]
  exact this

theorem zero_le_ofInt {n : Int} (h : 0 ≤ n) : (0 : float) ≤ ofInt n :=
  zero_le_round (by exact_mod_cast h)

end float

/-- The bounds check passes exactly when its four asserted comparisons
hold. -/
theorem checkPointInBounds_eq_ok_iff (g : Globals) (p : float3) :
    checkPointInBounds g p = .ok () ↔
      0 ≤ p.x ∧ 0 ≤ p.z ∧ p.x / float.ofInt g.SQUARE_SIZE ≤ float.ofInt g.mapDims.mapx ∧
        p.z / float.ofInt g.SQUARE_SIZE ≤ float.ofInt g.mapDims.mapy := by
  simp only [checkPointInBounds, assert, bind, Except.bind, ge_iff_le]
  by_cases h1 : 0 ≤ p.x <;> by_cases h2 : 0 ≤ p.z <;>
    by_cases h3 : p.x / float.ofInt g.SQUARE_SIZE ≤ float.ofInt g.mapDims.mapx <;>
    by_cases h4 : p.z / float.ofInt g.SQUARE_SIZE ≤ float.ofInt g.mapDims.mapy <;> simp [*]

/-- The bounds check has two outcomes: it passes or an `assert` fails. -/
theorem checkPointInBounds_cases (g : Globals) (p : float3) :
    checkPointInBounds g p = .ok () ∨ checkPointInBounds g p = .error .assertion := by
  simp only [checkPointInBounds, assert, bind, Except.bind, ge_iff_le]
  by_cases h1 : 0 ≤ p.x <;> by_cases h2 : 0 ≤ p.z <;>
    by_cases h3 : p.x / float.ofInt g.SQUARE_SIZE ≤ float.ofInt g.mapDims.mapx <;>
    by_cases h4 : p.z / float.ofInt g.SQUARE_SIZE ≤ float.ofInt g.mapDims.mapy <;> simp [*]

/-- The bounds check fails exactly when one of its four asserted comparisons
is false. -/
theorem checkPointInBounds_eq_error_iff (g : Globals) (p : float3) :
    checkPointInBounds g p = .error .assertion ↔
      ¬ (0 ≤ p.x ∧ 0 ≤ p.z ∧ p.x / float.ofInt g.SQUARE_SIZE ≤ float.ofInt g.mapDims.mapx ∧
        p.z / float.ofInt g.SQUARE_SIZE ≤ float.ofInt g.mapDims.mapy) := by
  rw [← checkPointInBounds_eq_ok_iff]
  rcases checkPointInBounds_cases g p with h | h <;> simp [h]

/-! ## The scan of `SetBoundingBox()` -/

/-- The scan loop over the points `rest` that follow the first `pre.length`
points folds `std::min`/`std::max` over their X and Z and touches nothing
else. -/
theorem SetBoundingBox_loop (rest : List float3) :
    ∀ (pre : List float3) (s : IPath), s.points = pre ++ rest →
      forLoop SetBoundingBox.body rest.length pre.length s = .ok
        { s with
          boundingBoxMins :=
            { s.boundingBoxMins with
              x := List.foldl std.min s.boundingBoxMins.x (rest.map float3.x)
              z := List.foldl std.min s.boundingBoxMins.z (rest.map float3.z) }
          boundingBoxMaxs :=
            { s.boundingBoxMaxs with
              x := List.foldl std.max s.boundingBoxMaxs.x (rest.map float3.x)
              z := List.foldl std.max s.boundingBoxMaxs.z (rest.map float3.z) } } := by
  induction rest with
  | nil =>
    intro pre s _
    simp [forLoop]
  | cons pt rest ih =>
    intro pre s h
    have hget : vecGet s.points pre.length = .ok pt := by
      rw [vecGet_eq_ok_iff, h, List.getElem?_append_right (Nat.le_refl _)]
      simp
    have hbody : SetBoundingBox.body pre.length s = .ok
        { s with
          boundingBoxMins :=
            { s.boundingBoxMins with
              x := std.min s.boundingBoxMins.x pt.x
              z := std.min s.boundingBoxMins.z pt.z }
          boundingBoxMaxs :=
            { s.boundingBoxMaxs with
              x := std.max s.boundingBoxMaxs.x pt.x
              z := std.max s.boundingBoxMaxs.z pt.z } } := by
      simp only [SetBoundingBox.body, hget, bind, Except.bind, pure, Except.pure]
    simp only [List.length_cons, forLoop, hbody]
    have hlen : pre.length + 1 = (pre ++ [pt]).length := by simp
    rw [hlen, ih (pre ++ [pt]) _ (by simp [h])]
    simp

/-! ### `std::min` and `std::max` on `float` -/

theorem std_min_ne_nan {a : float} (b : float) (ha : a ≠ .nan) : std.min a b ≠ .nan := by
  unfold std.min
  split
  · next h => exact float.ne_nan_of_lt_left h
  · exact ha

theorem std_min_le_left {a : float} (b : float) (ha : a ≠ .nan) : std.min a b ≤ a := by
  unfold std.min
  split
  · next h => exact float.le_of_lt' h
  · exact float.le_refl_of_ne_nan ha

theorem std_min_le_right {a b : float} (ha : a ≠ .nan) (hb : b ≠ .nan) : std.min a b ≤ b := by
  unfold std.min
  split
  · exact float.le_refl_of_ne_nan hb
  · next h => exact float.le_of_not_lt' ha hb h

theorem std_min_choice (a b : float) : std.min a b = a ∨ std.min a b = b := by
  unfold std.min
  split
  · exact Or.inr rfl
  · exact Or.inl rfl

theorem std_max_ne_nan {a : float} (b : float) (ha : a ≠ .nan) : std.max a b ≠ .nan := by
  unfold std.max
  split
  · next h => exact float.ne_nan_of_lt_right h
  · exact ha

theorem std_max_ge_left {a : float} (b : float) (ha : a ≠ .nan) : a ≤ std.max a b := by
  unfold std.max
  split
  · next h => exact float.le_of_lt' h
  · exact float.le_refl_of_ne_nan ha

theorem std_max_ge_right {a b : float} (ha : a ≠ .nan) (hb : b ≠ .nan) : b ≤ std.max a b := by
  unfold std.max
  split
  · exact float.le_refl_of_ne_nan hb
  · next h => exact float.le_of_not_lt' hb ha h

theorem std_max_choice (a b : float) : std.max a b = a ∨ std.max a b = b := by
  unfold std.max
  split
  · exact Or.inr rfl
  · exact Or.inl rfl

/-- A fold of `std::min` started at a value that is not NaN is not NaN: a NaN
operand is never selected. -/
theorem foldl_min_ne_nan (xs : List float) :
    ∀ a : float, a ≠ .nan → List.foldl std.min a xs ≠ .nan := by
  induction xs with
  | nil => intro a ha; exact ha
  | cons x xs ih => intro a ha; exact ih _ (std_min_ne_nan x ha)

theorem foldl_min_le_init (xs : List float) :
    ∀ a : float, a ≠ .nan → List.foldl std.min a xs ≤ a := by
  induction xs with
  | nil => intro a ha; exact float.le_refl_of_ne_nan ha
  | cons x xs ih =>
    intro a ha
    exact float.le_trans' (ih _ (std_min_ne_nan x ha)) (std_min_le_left x ha)

theorem foldl_min_le_mem (xs : List float) :
    ∀ a : float, a ≠ .nan → ∀ x ∈ xs, x ≠ .nan → List.foldl std.min a xs ≤ x := by
  induction xs with
  | nil => intro a _ x hx; simp at hx
  | cons y xs ih =>
    intro a ha x hx hxn
    simp only [List.foldl_cons]
    rcases List.mem_cons.mp hx with rfl | hx
    · exact float.le_trans' (foldl_min_le_init xs _ (std_min_ne_nan x ha))
        (std_min_le_right ha hxn)
    · exact ih _ (std_min_ne_nan y ha) x hx hxn

theorem foldl_min_mem (xs : List float) :
    ∀ a : float, List.foldl std.min a xs = a ∨ List.foldl std.min a xs ∈ xs := by
  induction xs with
  | nil => intro a; simp
  | cons y xs ih =>
    intro a
    simp only [List.foldl_cons, List.mem_cons]
    rcases ih (std.min a y) with h | h
    · rw [h]
      rcases std_min_choice a y with h' | h'
      · exact Or.inl h'
      · exact Or.inr (Or.inl h')
    · exact Or.inr (Or.inr h)

/-- A fold of `std::max` started at a value that is not NaN is not NaN. -/
theorem foldl_max_ne_nan (xs : List float) :
    ∀ a : float, a ≠ .nan → List.foldl std.max a xs ≠ .nan := by
  induction xs with
  | nil => intro a ha; exact ha
  | cons x xs ih => intro a ha; exact ih _ (std_max_ne_nan x ha)

theorem foldl_max_ge_init (xs : List float) :
    ∀ a : float, a ≠ .nan → a ≤ List.foldl std.max a xs := by
  induction xs with
  | nil => intro a ha; exact float.le_refl_of_ne_nan ha
  | cons x xs ih =>
    intro a ha
    exact float.le_trans' (std_max_ge_left x ha) (ih _ (std_max_ne_nan x ha))

theorem foldl_max_ge_mem (xs : List float) :
    ∀ a : float, a ≠ .nan → ∀ x ∈ xs, x ≠ .nan → x ≤ List.foldl std.max a xs := by
  induction xs with
  | nil => intro a _ x hx; simp at hx
  | cons y xs ih =>
    intro a ha x hx hxn
    simp only [List.foldl_cons]
    rcases List.mem_cons.mp hx with rfl | hx
    · exact float.le_trans' (std_max_ge_right ha hxn)
        (foldl_max_ge_init xs _ (std_max_ne_nan x ha))
    · exact ih _ (std_max_ne_nan y ha) x hx hxn

theorem foldl_max_mem (xs : List float) :
    ∀ a : float, List.foldl std.max a xs = a ∨ List.foldl std.max a xs ∈ xs := by
  induction xs with
  | nil => intro a; simp
  | cons y xs ih =>
    intro a
    simp only [List.foldl_cons, List.mem_cons]
    rcases ih (std.max a y) with h | h
    · rw [h]
      rcases std_max_choice a y with h' | h'
      · exact Or.inl h'
      · exact Or.inr (Or.inl h')
    · exact Or.inr (Or.inr h)

/-- A fold of `std::min` started at `a` over values one of which is at most
`a` is one of the values. -/
theorem foldl_min_mem_of_le (xs : List float) (a x : float) (hx : x ∈ xs) (hxa : x ≤ a) :
    List.foldl std.min a xs ∈ xs := by
  rcases foldl_min_mem xs a with h | h
  · have h1 : List.foldl std.min a xs ≤ x :=
      foldl_min_le_mem xs a (float.ne_nan_of_le_right hxa) x hx (float.ne_nan_of_le_left hxa)
    have h2 : x = a := float.le_antisymm' hxa (h ▸ h1)
    rw [h, ← h2]
    exact hx
  · exact h

/-- A fold of `std::max` started at `a` over values one of which is at least
`a` is one of the values. -/
theorem foldl_max_mem_of_ge (xs : List float) (a x : float) (hx : x ∈ xs) (hxa : a ≤ x) :
    List.foldl std.max a xs ∈ xs := by
  rcases foldl_max_mem xs a with h | h
  · have h1 : x ≤ List.foldl std.max a xs :=
      foldl_max_ge_mem xs a (float.ne_nan_of_le_left hxa) x hx (float.ne_nan_of_le_right hxa)
    have h2 : x = a := float.le_antisymm' (h ▸ h1) hxa
    rw [h, ← h2]
    exact hx
  · exact h

theorem sentinel_hi_ne_nan : (1000000 : float) ≠ .nan := by decide

theorem sentinel_lo_ne_nan : (-1000000 : float) ≠ .nan := by decide

theorem sentinel_lo_le_zero : (-1000000 : float) ≤ 0 := by decide!

/-- The state `SetBoundingBox()` has reached when it runs its two bounds
checks: the corners are the folds of the scan started at the sentinels, the
override flag is cleared. -/
theorem SetBoundingBox_eq (g : Globals) (p : IPath) :
    SetBoundingBox g p =
      (do
        let s2 : IPath :=
          { p with
            boundingBoxMins :=
              { p.boundingBoxMins with
                x := List.foldl std.min 1000000 (p.points.map float3.x)
                z := List.foldl std.min 1000000 (p.points.map float3.z) }
            boundingBoxMaxs :=
              { p.boundingBoxMaxs with
                x := List.foldl std.max (-1000000) (p.points.map float3.x)
                z := List.foldl std.max (-1000000) (p.points.map float3.z) }
            boundingBoxOverride := false }
        checkPointInBounds g s2.boundingBoxMins
        checkPointInBounds g s2.boundingBoxMaxs
        pure s2) := by
  unfold SetBoundingBox
  have h := SetBoundingBox_loop p.points []
    { p with
      boundingBoxMins := { p.boundingBoxMins with x := 1000000, z := 1000000 }
      boundingBoxMaxs := { p.boundingBoxMaxs with x := -1000000, z := -1000000 } } rfl
  simp only [List.length_nil] at h
  simp only [h, bind, Except.bind]

/-- `SetBoundingBox()` returns exactly when both scanned corners pass the
bounds check, and then returns the scanned state. -/
theorem SetBoundingBox_eq_ok_iff (g : Globals) (p s : IPath) :
    SetBoundingBox g p = .ok s ↔
      checkPointInBounds g
          { p.boundingBoxMins with
            x := List.foldl std.min 1000000 (p.points.map float3.x)
            z := List.foldl std.min 1000000 (p.points.map float3.z) } = .ok () ∧
        checkPointInBounds g
          { p.boundingBoxMaxs with
            x := List.foldl std.max (-1000000) (p.points.map float3.x)
            z := List.foldl std.max (-1000000) (p.points.map float3.z) } = .ok () ∧
        s = { p with
              boundingBoxMins :=
                { p.boundingBoxMins with
                  x := List.foldl std.min 1000000 (p.points.map float3.x)
                  z := List.foldl std.min 1000000 (p.points.map float3.z) }
              boundingBoxMaxs :=
                { p.boundingBoxMaxs with
                  x := List.foldl std.max (-1000000) (p.points.map float3.x)
                  z := List.foldl std.max (-1000000) (p.points.map float3.z) }
              boundingBoxOverride := false } := by
  rw [SetBoundingBox_eq]
  simp only [bind, Except.bind, pure, Except.pure]
  rcases checkPointInBounds_cases g
      { p.boundingBoxMins with
        x := List.foldl std.min 1000000 (p.points.map float3.x)
        z := List.foldl std.min 1000000 (p.points.map float3.z) } with h1 | h1 <;>
    rcases checkPointInBounds_cases g
      { p.boundingBoxMaxs with
        x := List.foldl std.max (-1000000) (p.points.map float3.x)
        z := List.foldl std.max (-1000000) (p.points.map float3.z) } with h2 | h2 <;>
    simp [h1, h2, eq_comm]

/-- C1 (amended): on a path none of whose X and Z coordinates is NaN, with a
point whose X is at most the scan sentinel `1e6` and a point whose Z is at
most `1e6`, a call of `SetBoundingBox()` that returns leaves
`mins.x`/`mins.z` at the minimum and `maxs.x`/`maxs.z` at the maximum of the
points' X/Z (each is attained by a point and bounds all points) and
`IsBoundingBoxOverriden()` false; and the call does return when every point
passes the bounds check. -/
theorem SetBoundingBox_exact_box (g : Globals) (p : IPath)
    (hlen : p.points.length < UINT_RANGE)
    (hnan : ∀ pt ∈ p.points, pt.x ≠ .nan ∧ pt.z ≠ .nan)
    (hsx : ∃ pt ∈ p.points, pt.x ≤ 1000000) (hsz : ∃ pt ∈ p.points, pt.z ≤ 1000000) :
    ((∀ pt ∈ p.points, checkPointInBounds g pt = .ok ()) → ∃ s, SetBoundingBox g p = .ok s) ∧
    ∀ s, SetBoundingBox g p = .ok s →
      (∃ pt ∈ p.points, pt.x = s.boundingBoxMins.x) ∧
      (∀ pt ∈ p.points, s.boundingBoxMins.x ≤ pt.x) ∧
      (∃ pt ∈ p.points, pt.z = s.boundingBoxMins.z) ∧
      (∀ pt ∈ p.points, s.boundingBoxMins.z ≤ pt.z) ∧
      (∃ pt ∈ p.points, pt.x = s.boundingBoxMaxs.x) ∧
      (∀ pt ∈ p.points, pt.x ≤ s.boundingBoxMaxs.x) ∧
      (∃ pt ∈ p.points, pt.z = s.boundingBoxMaxs.z) ∧
      (∀ pt ∈ p.points, pt.z ≤ s.boundingBoxMaxs.z) ∧
      IsBoundingBoxOverriden s = false := by
  have _ := hlen
  obtain ⟨qx, hqx, hqx1⟩ := hsx
  obtain ⟨qz, hqz, hqz1⟩ := hsz
  have hminx := foldl_min_mem_of_le _ 1000000 qx.x (List.mem_map_of_mem float3.x hqx) hqx1
  have hminz := foldl_min_mem_of_le _ 1000000 qz.z (List.mem_map_of_mem float3.z hqz) hqz1
  have hlex : ∀ pt ∈ p.points,
      List.foldl std.min 1000000 (p.points.map float3.x) ≤ pt.x :=
    fun pt hpt => foldl_min_le_mem _ _ sentinel_hi_ne_nan _ (List.mem_map_of_mem _ hpt)
      (hnan pt hpt).1
  have hlez : ∀ pt ∈ p.points,
      List.foldl std.min 1000000 (p.points.map float3.z) ≤ pt.z :=
    fun pt hpt => foldl_min_le_mem _ _ sentinel_hi_ne_nan _ (List.mem_map_of_mem _ hpt)
      (hnan pt hpt).2
  have hgex : ∀ pt ∈ p.points,
      pt.x ≤ List.foldl std.max (-1000000) (p.points.map float3.x) :=
    fun pt hpt => foldl_max_ge_mem _ _ sentinel_lo_ne_nan _ (List.mem_map_of_mem _ hpt)
      (hnan pt hpt).1
  have hgez : ∀ pt ∈ p.points,
      pt.z ≤ List.foldl std.max (-1000000) (p.points.map float3.z) :=
    fun pt hpt => foldl_max_ge_mem _ _ sentinel_lo_ne_nan _ (List.mem_map_of_mem _ hpt)
      (hnan pt hpt).2
  have hmaxx : 0 ≤ qx.x → List.foldl std.max (-1000000) (p.points.map float3.x) ∈
      p.points.map float3.x :=
    fun h0 => foldl_max_mem_of_ge _ _ qx.x (List.mem_map_of_mem float3.x hqx)
      (float.le_trans' sentinel_lo_le_zero h0)
  have hmaxz : 0 ≤ qz.z → List.foldl std.max (-1000000) (p.points.map float3.z) ∈
      p.points.map float3.z :=
    fun h0 => foldl_max_mem_of_ge _ _ qz.z (List.mem_map_of_mem float3.z hqz)
      (float.le_trans' sentinel_lo_le_zero h0)
  constructor
  · intro hall
    have hqx0 := (checkPointInBounds_eq_ok_iff g qx).mp (hall qx hqx)
    have hqz0 := (checkPointInBounds_eq_ok_iff g qz).mp (hall qz hqz)
    obtain ⟨a, ha, hax⟩ := List.mem_map.mp hminx
    obtain ⟨b, hb, hbz⟩ := List.mem_map.mp hminz
    obtain ⟨c, hc, hcx⟩ := List.mem_map.mp (hmaxx hqx0.1)
    obtain ⟨d, hd, hdz⟩ := List.mem_map.mp (hmaxz hqz0.2.1)
    have hA := (checkPointInBounds_eq_ok_iff g a).mp (hall a ha)
    have hB := (checkPointInBounds_eq_ok_iff g b).mp (hall b hb)
    have hC := (checkPointInBounds_eq_ok_iff g c).mp (hall c hc)
    have hD := (checkPointInBounds_eq_ok_iff g d).mp (hall d hd)
    refine ⟨_, (SetBoundingBox_eq_ok_iff g p _).mpr ⟨?_, ?_, rfl⟩⟩
    · rw [checkPointInBounds_eq_ok_iff]
      simp only [← hax, ← hbz]
      exact ⟨hA.1, hB.2.1, hA.2.2.1, hB.2.2.2⟩
    · rw [checkPointInBounds_eq_ok_iff]
      simp only [← hcx, ← hdz]
      exact ⟨hC.1, hD.2.1, hC.2.2.1, hD.2.2.2⟩
  · intro s hs
    obtain ⟨hmins, hmaxs, rfl⟩ := (SetBoundingBox_eq_ok_iff g p s).mp hs
    have hmins0 := (checkPointInBounds_eq_ok_iff g _).mp hmins
    have hq0x : 0 ≤ qx.x := float.le_trans' hmins0.1 (hlex qx hqx)
    have hq0z : 0 ≤ qz.z := float.le_trans' hmins0.2.1 (hlez qz hqz)
    obtain ⟨a, ha, hax⟩ := List.mem_map.mp hminx
    obtain ⟨b, hb, hbz⟩ := List.mem_map.mp hminz
    obtain ⟨c, hc, hcx⟩ := List.mem_map.mp (hmaxx hq0x)
    obtain ⟨d, hd, hdz⟩ := List.mem_map.mp (hmaxz hq0z)
    exact ⟨⟨a, ha, hax⟩, hlex, ⟨b, hb, hbz⟩, hlez, ⟨c, hc, hcx⟩, hgex, ⟨d, hd, hdz⟩, hgez, rfl⟩

/-! ## The shift loop of `RemovePoint` -/

/-- The shift loop started at `i` and run `count` times (all inside the
vector) returns a vector of the same length in which the positions
`i .. i + count - 1` hold their right neighbours and every other position is
unchanged. -/
theorem RemovePoint_loop : ∀ (count i : Nat) (pts : List float3), i + count < pts.length →
    ∃ r, forLoop RemovePoint.body count i pts = .ok r ∧ r.length = pts.length ∧
      ∀ j, r[j]? = if i ≤ j ∧ j < i + count then pts[j + 1]? else pts[j]? := by
  intro count
  induction count with
  | zero =>
    intro i pts _
    refine ⟨pts, rfl, rfl, fun j => ?_⟩
    rw [if_neg (by omega)]
  | succ count ih =>
    intro i pts h
    have h1 : i + 1 < pts.length := by omega
    have hbody : RemovePoint.body i pts = .ok (pts.set i (pts.get ⟨i + 1, h1⟩)) := by
      simp only [RemovePoint.body, vecGet_of_lt pts (i + 1) h1, bind, Except.bind]
      exact vecSet_of_lt pts i _ (by omega)
    obtain ⟨r, hr, hrlen, hrget⟩ :=
      ih (i + 1) (pts.set i (pts.get ⟨i + 1, h1⟩)) (by rw [List.length_set]; omega)
    refine ⟨r, ?_, ?_, fun j => ?_⟩
    · simp only [forLoop, hbody, hr]
    · rw [hrlen, List.length_set]
    · rw [hrget j]
      by_cases hj : i = j
      · subst hj
        rw [if_neg (by omega), if_pos (by omega), List.getElem?_set]
        simp [List.getElem?_eq_getElem h1, show i < pts.length by omega]
      · by_cases hc : i + 1 ≤ j ∧ j < i + 1 + count
        · rw [if_pos hc, if_pos (by omega), List.getElem?_set, if_neg (by omega)]
        · rw [if_neg hc, if_neg (by omega), List.getElem?_set, if_neg hj]

/-- C2: on a path of length `L ≥ 1`, `RemovePoint(k)` returns with exactly the
element at position `min(k, L-1)` erased: the new length is `L-1`, the
elements before that position are unchanged, each element formerly at a
position `j > min(k, L-1)` is at `j-1`, and for `k ≥ L-1` the result is the
old sequence without its last element; no other member changes. -/
theorem RemovePoint_erases_clamped (p : IPath) (k : Nat)
    (hL : 1 ≤ p.points.length) (hlen : p.points.length < UINT_RANGE) :
    ∃ s, RemovePoint p k = .ok s ∧
      s = { p with points := p.points.eraseIdx (Min.min k (p.points.length - 1)) } ∧
      s.points.length = p.points.length - 1 ∧
      (∀ j, j < Min.min k (p.points.length - 1) → s.points[j]? = p.points[j]?) ∧
      (∀ j, Min.min k (p.points.length - 1) < j → j < p.points.length →
        s.points[j - 1]? = p.points[j]?) ∧
      (p.points.length - 1 ≤ k → s.points = p.points.dropLast) := by
  have hend : usub (NumPoints p) 1 = p.points.length - 1 := by
    rw [NumPoints, usub_one_of_pos hL hlen]
  obtain ⟨r, hr, hrlen, hrget⟩ := RemovePoint_loop
    (p.points.length - 1 - Min.min k (p.points.length - 1)) (Min.min k (p.points.length - 1))
    p.points (by omega)
  have hpop : popBack r = .ok r.dropLast := by
    unfold popBack
    rw [if_neg (by omega)]
  have herase : r.dropLast = p.points.eraseIdx (Min.min k (p.points.length - 1)) := by
    apply List.ext_getElem?
    intro j
    rw [List.getElem?_dropLast, List.getElem?_eraseIdx, hrlen, hrget j]
    by_cases hj : j < p.points.length - 1
    · rw [if_pos hj]
      by_cases hjm : j < Min.min k (p.points.length - 1)
      · rw [if_neg (by omega), if_pos hjm]
      · rw [if_pos (by omega), if_neg hjm]
    · rw [if_neg hj, if_neg (by omega), List.getElem?_eq_none (by omega)]
  refine ⟨{ p with points := p.points.eraseIdx (Min.min k (p.points.length - 1)) },
    ?_, rfl, ?_, ?_, ?_, ?_⟩
  · simp only [RemovePoint, hend, std_min_nat, hr, hpop, herase, bind, Except.bind, pure, Except.pure]
  · show (p.points.eraseIdx _).length = _
    rw [List.length_eraseIdx, if_pos (by omega)]
  · intro j hj
    exact List.getElem?_eraseIdx_of_lt _ _ _ hj
  · intro j hj hjL
    show (p.points.eraseIdx _)[j - 1]? = _
    rw [List.getElem?_eraseIdx_of_ge _ _ _ (by omega), show j - 1 + 1 = j by omega]
  · intro hk
    show p.points.eraseIdx _ = _
    rw [show Min.min k (p.points.length - 1) = p.points.length - 1 by omega]
    exact (List.dropLast_eq_eraseIdx (by omega)).symm

/-! ## Point accessors -/

theorem float.div_def (a b : float) : a / b = float.div a b := rfl

/-- Rounding at concrete inputs: a binary32 value is kept; `2^24 + 1` and
`2^24 + 3` are ties and go to the even neighbour; `1/10` rounds to
`13421773 * 2^-27`; the largest finite value `(2^24 - 1) * 2^104` is kept and
the midpoint above it overflows; half of `2^-149` underflows to 0. -/
theorem float.round_at_concrete_inputs :
    float.round 1000000 = .fin 1000000 ∧
    float.round 16777217 = .fin 16777216 ∧
    float.round 16777219 = .fin 16777220 ∧
    float.round (1 / 10) = .fin (13421773 / 134217728) ∧
    float.round 340282346638528859811704183484516925440 =
      .fin 340282346638528859811704183484516925440 ∧
    float.round 340282356779733661637539395458142568448 = .pinf ∧
    float.round (-340282356779733661637539395458142568448) = .ninf ∧
    float.round (float.minSubnormal / 2) = .fin 0 ∧
    float.round (float.minSubnormal * 3 / 2) = .fin (float.minSubnormal * 2) := by
  decide!

/-- A positive `int` converts to a finite positive `float`. -/
theorem float.ofInt_pos_fin (n : Int) (h0 : 0 < n) (h1 : n < 2147483648) :
    ∃ s : ℚ, float.ofInt n = .fin s ∧ 0 < s := by
  have hlo : float.round 1 ≤ float.round n :=
    float.round_mono (by exact_mod_cast (show (1 : Int) ≤ n by omega))
  have hhi : float.round n ≤ float.round 2147483648 :=
    float.round_mono (by exact_mod_cast (le_of_lt h1))
  have e1 : float.round 1 = .fin 1 := by decide!
  have e2 : float.round 2147483648 = .fin 2147483648 := by decide!
  rw [e1] at hlo
  rw [e2] at hhi
  unfold float.ofInt
  cases hr : float.round (n : ℚ) with
  | nan => rw [hr] at hlo; simp [float.le_def, float.ble] at hlo
  | ninf => rw [hr] at hlo; simp [float.le_def, float.ble] at hlo
  | pinf => rw [hr] at hhi; simp [float.le_def, float.ble] at hhi
  | fin s =>
    rw [hr, float.fin_le_fin] at hlo
    exact ⟨s, rfl, by linarith⟩

/-- A quotient by a finite non-zero value is NaN only when the dividend is. -/
theorem float.div_fin_ne_nan (x : float) (s : ℚ) (hx : x ≠ .nan) (hs : s ≠ 0) :
    x / float.fin s ≠ .nan := by
  rw [float.div_def]
  cases x with
  | nan => exact absurd rfl hx
  | ninf =>
    show (if 0 ≤ s then float.ninf else float.pinf) ≠ .nan
    split <;> simp
  | pinf =>
    show (if 0 ≤ s then float.pinf else float.ninf) ≠ .nan
    split <;> simp
  | fin a =>
    show (if s = 0 then (if a = 0 then float.nan else if 0 < a then float.pinf else float.ninf)
      else float.round (a / s)) ≠ .nan
    rw [if_neg hs]
    exact float.round_ne_nan _

/-- For a point whose X and Z are not NaN, and a positive `SQUARE_SIZE`, the
bounds check fails exactly when `x < 0`, `z < 0`, `x / SQUARE_SIZE > mapx` or
`z / SQUARE_SIZE > mapy`, the quotients and comparisons taken in `float`. -/
theorem checkPointInBounds_eq_error_iff_of_ne_nan (g : Globals) (p : float3)
    (hx : p.x ≠ .nan) (hz : p.z ≠ .nan)
    (h0 : 0 < g.SQUARE_SIZE) (h1 : g.SQUARE_SIZE < 2147483648) :
    checkPointInBounds g p = .error .assertion ↔
      (p.x < 0 ∨ p.z < 0 ∨ p.x / float.ofInt g.SQUARE_SIZE > float.ofInt g.mapDims.mapx ∨
        p.z / float.ofInt g.SQUARE_SIZE > float.ofInt g.mapDims.mapy) := by
  obtain ⟨s, hs, hs0⟩ := float.ofInt_pos_fin g.SQUARE_SIZE h0 h1
  have hqx : p.x / float.ofInt g.SQUARE_SIZE ≠ .nan := by
    rw [hs]; exact float.div_fin_ne_nan _ _ hx (ne_of_gt hs0)
  have hqz : p.z / float.ofInt g.SQUARE_SIZE ≠ .nan := by
    rw [hs]; exact float.div_fin_ne_nan _ _ hz (ne_of_gt hs0)
  have hmx : float.ofInt g.mapDims.mapx ≠ .nan := float.round_ne_nan _
  have hmy : float.ofInt g.mapDims.mapy ≠ .nan := float.round_ne_nan _
  have h0n : (0 : float) ≠ .nan := by decide
  rw [checkPointInBounds_eq_error_iff]
  constructor
  · intro h
    by_contra hcon
    simp only [not_or, gt_iff_lt] at hcon
    exact h ⟨float.le_of_not_lt' h0n hx hcon.1, float.le_of_not_lt' h0n hz hcon.2.1,
      float.le_of_not_lt' hqx hmx hcon.2.2.1, float.le_of_not_lt' hqz hmy hcon.2.2.2⟩
  · rintro (h | h | h | h) hc
    · exact float.not_le_of_lt' h hc.1
    · exact float.not_le_of_lt' h hc.2.1
    · exact float.not_le_of_lt' h hc.2.2.1
    · exact float.not_le_of_lt' h hc.2.2.2

/-- A point with a NaN X or Z fails the bounds check. -/
theorem checkPointInBounds_nan (g : Globals) (p : float3) (h : p.x = .nan ∨ p.z = .nan) :
    checkPointInBounds g p = .error .assertion := by
  rw [checkPointInBounds_eq_error_iff]
  rintro ⟨h1, h2, _, _⟩
  rcases h with h | h
  · exact float.ne_nan_of_le_right h1 h
  · exact float.ne_nan_of_le_right h2 h

theorem SetPoint_of_check_ok (g : Globals) (p : IPath) (i : Nat) (pt : float3)
    (hL : 1 ≤ p.points.length) (hlen : p.points.length < UINT_RANGE)
    (hin : checkPointInBounds g pt = .ok ()) :
    SetPoint g p i pt =
      .ok { p with points := p.points.set (Min.min i (p.points.length - 1)) pt } := by
  simp only [SetPoint, hin, clamp_eq p i hL hlen, bind, Except.bind, pure, Except.pure]
  rw [vecSet_of_lt _ _ _ (by omega)]

theorem SetPoint_of_check_error (g : Globals) (p : IPath) (i : Nat) (pt : float3) (e : Fault)
    (hin : checkPointInBounds g pt = .error e) :
    SetPoint g p i pt = .error e := by
  simp only [SetPoint, hin, bind, Except.bind]

theorem GetPoint_eq (p : IPath) (i : Nat)
    (hL : 1 ≤ p.points.length) (hlen : p.points.length < UINT_RANGE) :
    GetPoint p i = .ok (p.points.get ⟨Min.min i (p.points.length - 1), by omega⟩) := by
  simp only [GetPoint, clamp_eq p i hL hlen]
  exact vecGet_of_lt _ _ _

theorem size_sub_one {L : Nat} (h0 : 0 < L) (h : L < UINT_RANGE) :
    (L + SIZE_RANGE - 1) % SIZE_RANGE = L - 1 := by
  unfold SIZE_RANGE UINT_RANGE at *
  omega

/-- C3 (amended): `SetSourcePoint` and `SetTargetPoint` perform no coordinate
check.  On a path with at least 2 points they return normally for every point
`pt`, whatever its coordinates, having stored it at index 0, respectively at
the last index. -/
theorem SetSourcePoint_SetTargetPoint_unchecked (p : IPath) (pt : float3)
    (h2 : 2 ≤ p.points.length) (hlen : p.points.length < UINT_RANGE) :
    SetSourcePoint p pt = .ok { p with points := p.points.set 0 pt } ∧
    SetTargetPoint p pt = .ok { p with points := p.points.set (p.points.length - 1) pt } := by
  have ha : assert (p.points.length ≥ 2) = .ok () := (assert_eq_ok_iff _).mpr h2
  constructor
  · simp only [SetSourcePoint, ha, vecSet_of_lt p.points 0 pt (by omega), bind, Except.bind,
      pure, Except.pure]
  · simp only [SetTargetPoint, ha, size_sub_one (show 0 < p.points.length by omega) hlen,
      vecSet_of_lt p.points (p.points.length - 1) pt (by omega), bind, Except.bind,
      pure, Except.pure]

/-- C4 (amended): on a non-empty path `SetPoint(i, pt)` fails, with a failed
assertion, exactly when one of the four asserted `float` comparisons
`pt.x >= 0`, `pt.z >= 0`, `pt.x / SQUARE_SIZE <= mapx`,
`pt.z / SQUARE_SIZE <= mapy` is false, and returns otherwise.  A point with a
NaN X or Z always fails.  For a point whose X and Z are not NaN (and a
positive `SQUARE_SIZE`) the call fails exactly when `pt.x < 0`, `pt.z < 0`,
`pt.x / SQUARE_SIZE > mapx` or `pt.z / SQUARE_SIZE > mapy`.  `pt.y` has no
influence.  On every path `SetBoundingBox(mins, maxs)` fails exactly when
`mins` or `maxs` fails that same check. -/
theorem SetPoint_SetBoundingBox_fail_iff (g : Globals) (p : IPath) (i : Nat) (pt : float3)
    (hL : 1 ≤ p.points.length) (hlen : p.points.length < UINT_RANGE) :
    (SetPoint g p i pt = .error .assertion ↔
      ¬ (pt.x ≥ 0 ∧ pt.z ≥ 0 ∧ pt.x / float.ofInt g.SQUARE_SIZE ≤ float.ofInt g.mapDims.mapx ∧
        pt.z / float.ofInt g.SQUARE_SIZE ≤ float.ofInt g.mapDims.mapy)) ∧
    ((∃ s, SetPoint g p i pt = .ok s) ↔
      (pt.x ≥ 0 ∧ pt.z ≥ 0 ∧ pt.x / float.ofInt g.SQUARE_SIZE ≤ float.ofInt g.mapDims.mapx ∧
        pt.z / float.ofInt g.SQUARE_SIZE ≤ float.ofInt g.mapDims.mapy)) ∧
    ((pt.x = .nan ∨ pt.z = .nan) → SetPoint g p i pt = .error .assertion) ∧
    (pt.x ≠ .nan → pt.z ≠ .nan → 0 < g.SQUARE_SIZE → g.SQUARE_SIZE < 2147483648 →
      (SetPoint g p i pt = .error .assertion ↔
        (pt.x < 0 ∨ pt.z < 0 ∨
          pt.x / float.ofInt g.SQUARE_SIZE > float.ofInt g.mapDims.mapx ∨
          pt.z / float.ofInt g.SQUARE_SIZE > float.ofInt g.mapDims.mapy))) ∧
    (∀ y : float, (SetPoint g p i { pt with y := y }).isOk = (SetPoint g p i pt).isOk) ∧
    ∀ (q : IPath) (mins maxs : float3),
      (SetBoundingBoxTo g q mins maxs = .error .assertion ↔
        ¬ (checkPointInBounds g mins = .ok () ∧ checkPointInBounds g maxs = .ok ())) ∧
      ((∃ s, SetBoundingBoxTo g q mins maxs = .ok s) ↔
        (checkPointInBounds g mins = .ok () ∧ checkPointInBounds g maxs = .ok ())) ∧
      (checkPointInBounds g mins = .ok () ↔
        (mins.x ≥ 0 ∧ mins.z ≥ 0 ∧
          mins.x / float.ofInt g.SQUARE_SIZE ≤ float.ofInt g.mapDims.mapx ∧
          mins.z / float.ofInt g.SQUARE_SIZE ≤ float.ofInt g.mapDims.mapy)) ∧
      (checkPointInBounds g maxs = .ok () ↔
        (maxs.x ≥ 0 ∧ maxs.z ≥ 0 ∧
          maxs.x / float.ofInt g.SQUARE_SIZE ≤ float.ofInt g.mapDims.mapx ∧
          maxs.z / float.ofInt g.SQUARE_SIZE ≤ float.ofInt g.mapDims.mapy)) := by
  have key : ∀ pt' : float3,
      (SetPoint g p i pt' = .error .assertion ↔ checkPointInBounds g pt' = .error .assertion) ∧
      ((∃ s, SetPoint g p i pt' = .ok s) ↔ checkPointInBounds g pt' = .ok ()) := by
    intro pt'
    rcases checkPointInBounds_cases g pt' with h | h
    · rw [SetPoint_of_check_ok g p i pt' hL hlen h, h]
      simp
    · rw [SetPoint_of_check_error g p i pt' _ h, h]
      simp
  refine ⟨?_, ?_, ?_, ?_, ?_, ?_⟩
  · rw [(key pt).1, checkPointInBounds_eq_error_iff]
  · rw [(key pt).2, checkPointInBounds_eq_ok_iff]
  · intro h
    rw [(key pt).1]
    exact checkPointInBounds_nan g pt h
  · intro hx hz h0 h1
    rw [(key pt).1]
    exact checkPointInBounds_eq_error_iff_of_ne_nan g pt hx hz h0 h1
  · intro y
    have hy : checkPointInBounds g { pt with y := y } = checkPointInBounds g pt := rfl
    rcases checkPointInBounds_cases g pt with h | h
    · rw [SetPoint_of_check_ok g p i _ hL hlen (hy.trans h), SetPoint_of_check_ok g p i pt hL hlen h]
      rfl
    · rw [SetPoint_of_check_error g p i _ _ (hy.trans h), SetPoint_of_check_error g p i pt _ h]
  · intro q mins maxs
    refine ⟨?_, ?_, ?_, ?_⟩
    · simp only [SetBoundingBoxTo, bind, Except.bind, pure, Except.pure]
      rcases checkPointInBounds_cases g mins with h1 | h1 <;>
        rcases checkPointInBounds_cases g maxs with h2 | h2 <;> simp [h1, h2]
    · simp only [SetBoundingBoxTo, bind, Except.bind, pure, Except.pure]
      rcases checkPointInBounds_cases g mins with h1 | h1 <;>
        rcases checkPointInBounds_cases g maxs with h2 | h2 <;> simp [h1, h2]
    · rw [checkPointInBounds_eq_ok_iff]
    · rw [checkPointInBounds_eq_ok_iff]

/-- C5: on a non-empty path `GetPoint(i)` returns the `i`-th point for
`i < NumPoints()`, and for every `i ≥ NumPoints()` it returns what
`GetPoint(NumPoints() - 1)` returns, the last point. -/
theorem GetPoint_clamps (p : IPath) (i : Nat)
    (hL : 1 ≤ p.points.length) (hlen : p.points.length < UINT_RANGE) :
    (i < NumPoints p → ∃ v, p.points[i]? = some v ∧ GetPoint p i = .ok v) ∧
    (NumPoints p ≤ i →
      GetPoint p i = GetPoint p (usub (NumPoints p) 1) ∧
      ∃ v, p.points[p.points.length - 1]? = some v ∧ GetPoint p i = .ok v) := by
  have hN := NumPoints_of_lt p hlen
  constructor
  · intro hi
    rw [hN] at hi
    refine ⟨p.points.get ⟨i, hi⟩, by simp [List.getElem?_eq_getElem hi], ?_⟩
    rw [GetPoint_eq p i hL hlen]
    simp only [show Min.min i (p.points.length - 1) = i by omega]
  · intro hi
    rw [hN] at hi
    have hm : Min.min i (p.points.length - 1) = p.points.length - 1 := by omega
    have hu : usub (NumPoints p) 1 = p.points.length - 1 := by
      rw [NumPoints, usub_one_of_pos hL hlen]
    refine ⟨?_, p.points.get ⟨p.points.length - 1, by omega⟩,
      by simp [List.getElem?_eq_getElem (show p.points.length - 1 < p.points.length by omega)], ?_⟩
    · rw [hu, GetPoint_eq p i hL hlen, GetPoint_eq p _ hL hlen]
      simp only [hm, Nat.min_self]
    · rw [GetPoint_eq p i hL hlen]
      simp only [hm]

/-- C6: on a non-empty path of length `L`, for every index `i` and every
point `pt` that passes the bounds check, `SetPoint(i, pt)` returns; afterwards
the point at position `min(i, L-1)` is `pt`, `GetPoint(i)` returns `pt`, the
length is still `L`, every other position holds its previous value, and no
other member has changed. -/
theorem SetPoint_frame (g : Globals) (p : IPath) (i : Nat) (pt : float3)
    (hL : 1 ≤ p.points.length) (hlen : p.points.length < UINT_RANGE)
    (hin : checkPointInBounds g pt = .ok ()) :
    ∃ s, SetPoint g p i pt = .ok s ∧
      s.points[Min.min i (p.points.length - 1)]? = some pt ∧
      GetPoint s i = .ok pt ∧
      s.points.length = p.points.length ∧
      (∀ j, j ≠ Min.min i (p.points.length - 1) → s.points[j]? = p.points[j]?) ∧
      s = { p with points := s.points } := by
  refine ⟨_, SetPoint_of_check_ok g p i pt hL hlen hin, ?_, ?_, ?_, ?_, rfl⟩
  · show (p.points.set _ pt)[_]? = _
    rw [List.getElem?_set, if_pos rfl, if_pos (by omega)]
  · have hL' : 1 ≤ (p.points.set (Min.min i (p.points.length - 1)) pt).length := by
      rw [List.length_set]; exact hL
    have hlen' : (p.points.set (Min.min i (p.points.length - 1)) pt).length < UINT_RANGE := by
      rw [List.length_set]; exact hlen
    rw [GetPoint_eq _ i hL' hlen']
    simp [List.length_set]
  · exact List.length_set _ _ _
  · intro j hj
    show (p.points.set _ pt)[j]? = _
    rw [List.getElem?_set, if_neg (fun h => hj h.symm)]

/-- C7: for every `unsigned int` `n` and every prior state, after
`AllocPoints(n)` `NumPoints()` is `n`, every index below `n` reads as the
origin, and the whole sequence consists of `n` origins (no previous point is
left). -/
theorem AllocPoints_resets (p : IPath) (n : Nat) (hn : n < UINT_RANGE) :
    NumPoints (AllocPoints p n) = n ∧
    (∀ i, i < n → GetPoint (AllocPoints p n) i = .ok ⟨0, 0, 0⟩) ∧
    (AllocPoints p n).points = List.replicate n ⟨0, 0, 0⟩ := by
  have hlen : (AllocPoints p n).points.length = n := by simp [AllocPoints]
  refine ⟨?_, ?_, rfl⟩
  · rw [NumPoints, hlen]
    exact Nat.mod_eq_of_lt hn
  · intro i hi
    rw [GetPoint_eq _ i (by omega) (by omega)]
    simp [AllocPoints]

/-! ## The copy loop of `CopyPoints` -/

/-- The copy loop started at `i` and run `count` times (inside both vectors)
returns a state that differs from the start only in `points`, where the
positions `i .. i + count - 1` hold the points of `p` and every other position
is unchanged. -/
theorem CopyPoints_loop (p : IPath) (hlen : p.points.length < UINT_RANGE) :
    ∀ (count i : Nat) (s : IPath), i + count ≤ p.points.length →
      s.points.length = p.points.length →
      ∃ r, forLoop (CopyPoints.body p) count i s = .ok { s with points := r } ∧
        r.length = p.points.length ∧
        ∀ j, r[j]? = if i ≤ j ∧ j < i + count then p.points[j]? else s.points[j]? := by
  intro count
  induction count with
  | zero =>
    intro i s _ hs
    refine ⟨s.points, rfl, hs, fun j => ?_⟩
    rw [if_neg (by omega)]
  | succ count ih =>
    intro i s h hs
    have hi : i < p.points.length := by omega
    have hget : GetPoint p i = .ok (p.points.get ⟨i, hi⟩) := by
      rw [GetPoint_eq p i (by omega) hlen]
      simp only [show Min.min i (p.points.length - 1) = i by omega]
    have hbody : CopyPoints.body p i s =
        .ok { s with points := s.points.set i (p.points.get ⟨i, hi⟩) } := by
      simp only [CopyPoints.body, hget, vecSet_of_lt s.points i _ (by omega), bind, Except.bind,
        pure, Except.pure]
    obtain ⟨r, hr, hrlen, hrget⟩ :=
      ih (i + 1) { s with points := s.points.set i (p.points.get ⟨i, hi⟩) } (by omega)
        (by show (s.points.set _ _).length = _; rw [List.length_set]; exact hs)
    refine ⟨r, ?_, hrlen, fun j => ?_⟩
    · simp only [forLoop, hbody, hr]
    · rw [hrget j]
      show (if i + 1 ≤ j ∧ j < i + 1 + count then p.points[j]?
        else (s.points.set i (p.points.get ⟨i, hi⟩))[j]?) = _
      by_cases hj : i = j
      · subst hj
        rw [if_neg (by omega), if_pos (by omega), List.getElem?_set]
        simp [List.getElem?_eq_getElem hi, show i < s.points.length by omega]
      · by_cases hc : i + 1 ≤ j ∧ j < i + 1 + count
        · rw [if_pos hc, if_pos (by omega)]
        · rw [if_neg hc, if_neg (by omega), List.getElem?_set, if_neg hj]

/-- C8: for every destination `dst` (in any prior state) and every source
`other` (possibly empty), `dst.CopyPoints(other)` returns; afterwards
`NumPoints()` of the destination is `other.NumPoints()`, `GetPoint(i)` of the
destination equals `other.GetPoint(i)` (a returned point) for every
`i < other.NumPoints()`, and the destination differs from `dst` only in
`points`, which is `other`'s sequence.  `other` is passed by const reference
and is not modified. -/
theorem CopyPoints_copies (dst other : IPath) (hlen : other.points.length < UINT_RANGE) :
    ∃ s, CopyPoints dst other = .ok s ∧
      NumPoints s = NumPoints other ∧
      (∀ i, i < NumPoints other →
        GetPoint s i = GetPoint other i ∧ ∃ v, GetPoint other i = .ok v) ∧
      s.points = other.points ∧
      s = { dst with points := other.points } := by
  have hN := NumPoints_of_lt other hlen
  obtain ⟨r, hr, hrlen, hrget⟩ := CopyPoints_loop other hlen other.points.length 0
    (AllocPoints dst other.points.length) (by omega) (by simp [AllocPoints])
  have hA : (AllocPoints dst other.points.length).points.length = other.points.length := by
    simp [AllocPoints]
  have hreq : r = other.points := by
    apply List.ext_getElem?
    intro j
    rw [hrget j]
    by_cases hj : j < other.points.length
    · rw [if_pos (by omega)]
    · rw [if_neg (by omega), List.getElem?_eq_none (l := other.points) (by omega),
        List.getElem?_eq_none (by omega)]
  rw [hreq] at hr
  refine ⟨{ dst with points := other.points }, ?_, rfl, ?_, rfl, rfl⟩
  · rw [CopyPoints, hN]
    exact hr
  · intro i hi
    rw [hN] at hi
    have hL : 1 ≤ other.points.length := by omega
    refine ⟨?_, _, GetPoint_eq other i hL hlen⟩
    rw [GetPoint_eq other i hL hlen]
    exact GetPoint_eq { dst with points := other.points } i hL hlen

/-- C9: for every pair of corners that both pass the bounds check and every
path, `SetBoundingBox(mins, maxs)` returns; afterwards
`IsBoundingBoxOverriden()` is true, `GetBoundingBoxMins()` is `mins` and
`GetBoundingBoxMaxs()` is `maxs` (all three components), and no other member
has changed.  Nothing is assumed about the points or the order of the
corners. -/
theorem SetBoundingBoxTo_stores (g : Globals) (p : IPath) (mins maxs : float3)
    (h1 : checkPointInBounds g mins = .ok ()) (h2 : checkPointInBounds g maxs = .ok ()) :
    ∃ s, SetBoundingBoxTo g p mins maxs = .ok s ∧
      IsBoundingBoxOverriden s = true ∧
      GetBoundingBoxMins s = mins ∧
      GetBoundingBoxMaxs s = maxs ∧
      s = { p with boundingBoxMins := mins, boundingBoxMaxs := maxs, boundingBoxOverride := true } := by
  refine ⟨{ p with boundingBoxMins := mins, boundingBoxMaxs := maxs, boundingBoxOverride := true },
    ?_, rfl, rfl, rfl, rfl⟩
  simp only [SetBoundingBoxTo, h1, h2, bind, Except.bind, pure, Except.pure]

/-- C10: move-assigning a path `dst` from a distinct path `src`, or
move-constructing a path from `src`, leaves `src` with `NumPoints() = 0` and
an empty node list, and the destination's points and nodes are the sequences
`src` held before. -/
theorem move_transfers_sequences (dst src : IPath) :
    (NumPoints (moveAssign dst src).2 = 0 ∧ (moveAssign dst src).2.nodes = [] ∧
      (moveAssign dst src).1.points = src.points ∧ (moveAssign dst src).1.nodes = src.nodes) ∧
    (NumPoints (moveConstruct src).2 = 0 ∧ (moveConstruct src).2.nodes = [] ∧
      (moveConstruct src).1.points = src.points ∧ (moveConstruct src).1.nodes = src.nodes) :=
  ⟨⟨rfl, rfl, rfl, rfl⟩, ⟨rfl, rfl, rfl, rfl⟩⟩

/-! ## The theorems at concrete inputs -/

/-- C1, as stated, fails on the path `farPath` (one point, X and Z above the
sentinel `1e6`) on the map `hugeMap`: `SetBoundingBox()` returns with
`mins.x = mins.z = 1000000`, strictly below the X and the Z of the only
point.  It also fails on `nanPath`, on `smallMap`: the scan never selects the
NaN coordinates of the first point, the call returns with the box
`(16,_,24)`-`(16,_,24)`, and `mins.x <= x` is false at the first point. -/
theorem SetBoundingBox_sentinel_counterexample :
    1 ≤ farPath.points.length ∧
    SetBoundingBox hugeMap farPath =
      .ok { farPath with
            boundingBoxMins := ⟨1000000, 0, 1000000⟩
            boundingBoxMaxs := ⟨2000000, 0, 2000000⟩ } ∧
    (∀ pt ∈ farPath.points, (1000000 : float) < pt.x ∧ (1000000 : float) < pt.z) ∧
    1 ≤ nanPath.points.length ∧
    SetBoundingBox smallMap nanPath =
      .ok { nanPath with
            boundingBoxMins := ⟨16, 0, 24⟩
            boundingBoxMaxs := ⟨16, 0, 24⟩ } ∧
    ¬ (∀ pt ∈ nanPath.points, (16 : float) ≤ pt.x) := by
  decide!

/-- The amended C1 on the spec's example, where the points `(1,_,2)`,
`(5,_,9)`, `(3,_,0)` give mins `(1,_,0)` and maxs `(5,_,9)`, and on
`mixedPath` on `hugeMap`, where one point lies below and one above the
sentinel and the box is `(5,_,5)`-`(2000000,_,2000000)`. -/
theorem SetBoundingBox_exact_box_witness :
    (threePoints.points.length < UINT_RANGE ∧
      (∀ pt ∈ threePoints.points, pt.x ≠ .nan ∧ pt.z ≠ .nan) ∧
      (∃ pt ∈ threePoints.points, pt.x ≤ 1000000) ∧
      (∃ pt ∈ threePoints.points, pt.z ≤ 1000000)) ∧
    SetBoundingBox smallMap threePoints =
      .ok { threePoints with boundingBoxMins := ⟨1, 0, 0⟩, boundingBoxMaxs := ⟨5, 0, 9⟩ } ∧
    ((∃ pt ∈ threePoints.points, pt.x = 1) ∧ (∀ pt ∈ threePoints.points, 1 ≤ pt.x) ∧
      (∃ pt ∈ threePoints.points, pt.z = 0) ∧ (∀ pt ∈ threePoints.points, 0 ≤ pt.z) ∧
      (∃ pt ∈ threePoints.points, pt.x = 5) ∧ (∀ pt ∈ threePoints.points, pt.x ≤ 5) ∧
      (∃ pt ∈ threePoints.points, pt.z = 9) ∧ (∀ pt ∈ threePoints.points, pt.z ≤ 9) ∧
      IsBoundingBoxOverriden
        { threePoints with boundingBoxMins := ⟨1, 0, 0⟩, boundingBoxMaxs := ⟨5, 0, 9⟩ } = false) ∧
    (mixedPath.points.length < UINT_RANGE ∧
      (∀ pt ∈ mixedPath.points, pt.x ≠ .nan ∧ pt.z ≠ .nan) ∧
      (∃ pt ∈ mixedPath.points, pt.x ≤ 1000000) ∧
      (∃ pt ∈ mixedPath.points, pt.z ≤ 1000000)) ∧
    SetBoundingBox hugeMap mixedPath =
      .ok { mixedPath with
            boundingBoxMins := ⟨5, 0, 5⟩, boundingBoxMaxs := ⟨2000000, 0, 2000000⟩ } ∧
    ((∃ pt ∈ mixedPath.points, pt.x = 5) ∧ (∀ pt ∈ mixedPath.points, 5 ≤ pt.x) ∧
      (∃ pt ∈ mixedPath.points, pt.x = 2000000) ∧
      (∀ pt ∈ mixedPath.points, pt.x ≤ 2000000)) :=
  have hs : SetBoundingBox smallMap threePoints =
      .ok { threePoints with boundingBoxMins := ⟨1, 0, 0⟩, boundingBoxMaxs := ⟨5, 0, 9⟩ } := by
    decide!
  have hm : SetBoundingBox hugeMap mixedPath =
      .ok { mixedPath with
            boundingBoxMins := ⟨5, 0, 5⟩, boundingBoxMaxs := ⟨2000000, 0, 2000000⟩ } := by
    decide!
  have hm' := (SetBoundingBox_exact_box hugeMap mixedPath (by decide) (by decide!) (by decide!)
    (by decide!)).2 _ hm
  ⟨⟨by decide, by decide!, by decide!, by decide!⟩, hs,
    (SetBoundingBox_exact_box smallMap threePoints (by decide) (by decide!) (by decide!)
      (by decide!)).2 _ hs,
    ⟨by decide, by decide!, by decide!, by decide!⟩, hm,
    ⟨hm'.1, hm'.2.1, hm'.2.2.2.2.1, hm'.2.2.2.2.2.1⟩⟩

/-- C2 at `RemovePoint(7)` on three points: the index clamps to 2 and the
last point is dropped. -/
theorem RemovePoint_erases_clamped_witness :
    (1 ≤ threePoints.points.length ∧ threePoints.points.length < UINT_RANGE) ∧
    ∃ s, RemovePoint threePoints 7 = .ok s ∧ s.points.length = 2 ∧
      s.points = threePoints.points.dropLast :=
  ⟨⟨by decide, by decide⟩,
    match RemovePoint_erases_clamped threePoints 7 (by decide) (by decide) with
    | ⟨s, hs, _, hlen, _, _, hlast⟩ => ⟨s, hs, hlen, hlast (by decide)⟩⟩

/-- C3, as stated, fails on `twoPoints`: the point `(-5,0,-5)` fails the
bounds check of `smallMap`, yet `SetSourcePoint` and `SetTargetPoint` return
normally and store it. -/
theorem SetSourcePoint_SetTargetPoint_counterexample :
    2 ≤ twoPoints.points.length ∧
    checkPointInBounds smallMap ⟨-5, 0, -5⟩ = .error .assertion ∧
    SetSourcePoint twoPoints ⟨-5, 0, -5⟩ = .ok { points := [⟨-5, 0, -5⟩, ⟨16, 0, 24⟩] } ∧
    SetTargetPoint twoPoints ⟨-5, 0, -5⟩ = .ok { points := [⟨8, 0, 8⟩, ⟨-5, 0, -5⟩] } := by
  decide!

/-- The amended C3 on three points and a point far outside every map. -/
theorem SetSourcePoint_SetTargetPoint_unchecked_witness :
    (2 ≤ threePoints.points.length ∧ threePoints.points.length < UINT_RANGE) ∧
    SetSourcePoint threePoints ⟨-1, 0, 100000000⟩ =
      .ok { threePoints with points := threePoints.points.set 0 ⟨-1, 0, 100000000⟩ } ∧
    SetTargetPoint threePoints ⟨-1, 0, 100000000⟩ =
      .ok { threePoints with
            points := threePoints.points.set (threePoints.points.length - 1) ⟨-1, 0, 100000000⟩ } :=
  ⟨⟨by decide, by decide⟩,
    SetSourcePoint_SetTargetPoint_unchecked threePoints ⟨-1, 0, 100000000⟩ (by decide) (by decide)⟩

/-- C4, as stated, fails at a NaN coordinate: `SetPoint(0, (NaN,0,0))` on
`threePoints` fails the assertion `p.x >= 0`, while none of `p.x < 0`,
`p.z < 0`, `p.x / SQUARE_SIZE > mapx`, `p.z / SQUARE_SIZE > mapy` holds. -/
theorem SetPoint_nan_counterexample :
    1 ≤ threePoints.points.length ∧
    SetPoint smallMap threePoints 0 ⟨.nan, 0, 0⟩ = .error .assertion ∧
    ¬ ((float.nan : float) < 0) ∧
    ¬ ((0 : float) < 0) ∧
    ¬ ((float.nan : float) / float.ofInt smallMap.SQUARE_SIZE >
        float.ofInt smallMap.mapDims.mapx) ∧
    ¬ ((0 : float) / float.ofInt smallMap.SQUARE_SIZE > float.ofInt smallMap.mapDims.mapy) := by
  decide!

/-- The amended C4 on `smallMap` (extent 800): `x = 801` fails, the boundary
point `(800, _, 0)` is accepted, a NaN `x` fails, a negative `z` fails.  On
`roundedMap` the point `x = 134217760` is accepted: `x / 8 = 16777220` and
the extent 16777219 converts to 16777220.  On `flatMap` the point
`x = 2^-149` is accepted: `x / 8` underflows to 0. -/
theorem SetPoint_SetBoundingBox_fail_iff_witness :
    (1 ≤ threePoints.points.length ∧ threePoints.points.length < UINT_RANGE) ∧
    SetPoint smallMap threePoints 1 ⟨801, 0, 3⟩ = .error .assertion ∧
    (∃ s, SetPoint smallMap threePoints 1 ⟨800, -7, 0⟩ = .ok s) ∧
    SetPoint smallMap threePoints 1 ⟨.nan, 0, 3⟩ = .error .assertion ∧
    SetPoint smallMap threePoints 1 ⟨4, 0, -3⟩ = .error .assertion ∧
    (∃ s, SetPoint roundedMap threePoints 1 ⟨134217760, 0, 0⟩ = .ok s) ∧
    (∃ s, SetPoint flatMap threePoints 1 ⟨.fin float.minSubnormal, 0, 0⟩ = .ok s) :=
  ⟨⟨by decide, by decide⟩,
    (SetPoint_SetBoundingBox_fail_iff smallMap threePoints 1 ⟨801, 0, 3⟩ (by decide) (by decide)).1.mpr
      (by decide!),
    (SetPoint_SetBoundingBox_fail_iff smallMap threePoints 1 ⟨800, -7, 0⟩ (by decide)
      (by decide)).2.1.mpr (by decide!),
    (SetPoint_SetBoundingBox_fail_iff smallMap threePoints 1 ⟨.nan, 0, 3⟩ (by decide)
      (by decide)).2.2.1 (Or.inl rfl),
    ((SetPoint_SetBoundingBox_fail_iff smallMap threePoints 1 ⟨4, 0, -3⟩ (by decide)
      (by decide)).2.2.2.1 (by decide) (by decide) (by decide) (by decide)).mpr
      (Or.inr (Or.inl (by decide!))),
    (SetPoint_SetBoundingBox_fail_iff roundedMap threePoints 1 ⟨134217760, 0, 0⟩ (by decide)
      (by decide)).2.1.mpr (by decide!),
    (SetPoint_SetBoundingBox_fail_iff flatMap threePoints 1 ⟨.fin float.minSubnormal, 0, 0⟩
      (by decide) (by decide)).2.1.mpr (by decide!)⟩

/-- C5 on three points: index 1 reads the second point, index 10 reads what
index 2 reads. -/
theorem GetPoint_clamps_witness :
    (1 ≤ threePoints.points.length ∧ threePoints.points.length < UINT_RANGE) ∧
    (∃ v, threePoints.points[1]? = some v ∧ GetPoint threePoints 1 = .ok v) ∧
    GetPoint threePoints 10 = GetPoint threePoints (usub (NumPoints threePoints) 1) :=
  ⟨⟨by decide, by decide⟩,
    (GetPoint_clamps threePoints 1 (by decide) (by decide)).1 (by decide),
    ((GetPoint_clamps threePoints 10 (by decide) (by decide)).2 (by decide)).1⟩

/-- C6 on three points: `SetPoint(9, (4,4,4))` writes the last point. -/
theorem SetPoint_frame_witness :
    (1 ≤ threePoints.points.length ∧ threePoints.points.length < UINT_RANGE ∧
      checkPointInBounds smallMap ⟨4, 4, 4⟩ = .ok ()) ∧
    ∃ s, SetPoint smallMap threePoints 9 ⟨4, 4, 4⟩ = .ok s ∧ GetPoint s 9 = .ok ⟨4, 4, 4⟩ ∧
      s.points.length = threePoints.points.length :=
  ⟨⟨by decide, by decide, by decide!⟩,
    match SetPoint_frame smallMap threePoints 9 ⟨4, 4, 4⟩ (by decide) (by decide) (by decide!) with
    | ⟨s, hs, _, hget, hlen, _, _⟩ => ⟨s, hs, hget, hlen⟩⟩

/-- C7 at `AllocPoints(2)` on a path that held three points. -/
theorem AllocPoints_resets_witness :
    2 < UINT_RANGE ∧ NumPoints (AllocPoints threePoints 2) = 2 ∧
    (AllocPoints threePoints 2).points = [⟨0, 0, 0⟩, ⟨0, 0, 0⟩] :=
  ⟨by decide, (AllocPoints_resets threePoints 2 (by decide)).1,
    (AllocPoints_resets threePoints 2 (by decide)).2.2⟩

/-- C8 at `farPath.CopyPoints(threePoints)`. -/
theorem CopyPoints_copies_witness :
    threePoints.points.length < UINT_RANGE ∧
    ∃ s, CopyPoints farPath threePoints = .ok s ∧ NumPoints s = NumPoints threePoints ∧
      s.points = threePoints.points :=
  ⟨by decide,
    match CopyPoints_copies farPath threePoints (by decide) with
    | ⟨s, hs, hn, _, hpts, _⟩ => ⟨s, hs, hn, hpts⟩⟩

/-- C9 with `mins = (800,5,800)` above `maxs = (0,-3,0)`. -/
theorem SetBoundingBoxTo_stores_witness :
    (checkPointInBounds smallMap ⟨800, 5, 800⟩ = .ok () ∧
      checkPointInBounds smallMap ⟨0, -3, 0⟩ = .ok ()) ∧
    ∃ s, SetBoundingBoxTo smallMap threePoints ⟨800, 5, 800⟩ ⟨0, -3, 0⟩ = .ok s ∧
      IsBoundingBoxOverriden s = true ∧ GetBoundingBoxMins s = ⟨800, 5, 800⟩ ∧
      GetBoundingBoxMaxs s = ⟨0, -3, 0⟩ :=
  ⟨⟨by decide!, by decide!⟩,
    match SetBoundingBoxTo_stores smallMap threePoints ⟨800, 5, 800⟩ ⟨0, -3, 0⟩ (by decide!)
      (by decide!) with
    | ⟨s, hs, ho, hmin, hmax, _⟩ => ⟨s, hs, ho, hmin, hmax⟩⟩

/-! ## Construction, copy and move -/

/-- C11, as stated, fails on `usedPath`: after a move the source still holds
its id 7, its hash 42 and its bounding box; only its two vectors are empty,
so it differs from a freshly constructed path. -/
theorem move_source_not_fresh_counterexample :
    (moveAssign {} usedPath).2 = { usedPath with points := [], nodes := [] } ∧
    GetID (moveAssign {} usedPath).2 = 7 ∧ GetID ({} : IPath) = 0 ∧
    GetHash (moveAssign {} usedPath).2 = 42 ∧
    (moveAssign {} usedPath).2 ≠ ({} : IPath) ∧
    (moveConstruct usedPath).2 ≠ ({} : IPath) := by
  decide!

/-- C11 (amended): a move empties the source's points and nodes and writes no
other member of the source: every other field keeps the value it had before
the move.  The source equals a freshly constructed path exactly when those
fields already held their default values. -/
theorem move_source_keeps_fields (dst src : IPath) :
    (moveAssign dst src).2 = { src with points := [], nodes := [] } ∧
    (moveConstruct src).2 = { src with points := [], nodes := [] } ∧
    ((moveAssign dst src).2 = ({} : IPath) ↔
      { src with points := [], nodes := [] } = ({} : IPath)) :=
  ⟨rfl, rfl, Iff.rfl⟩

/-- C12: on a freshly constructed path `GetHash()` and `GetVirtualHash()`
return `2^64 - 1`, the initialiser `-1` reduced modulo `2^64`, and `GetID()`
returns 0. -/
theorem fresh_hash_all_ones :
    GetHash ({} : IPath) = 2 ^ 64 - 1 ∧
    GetVirtualHash ({} : IPath) = 2 ^ 64 - 1 ∧
    GetHash ({} : IPath) = ((-1 : Int) % (2 : Int) ^ 64).toNat ∧
    GetID ({} : IPath) = 0 := by
  decide

/-- C13: copy assignment and move assignment leave the destination, whatever
it held, with the source's `hash`, `virtualHash`, `pathID`, `pathType`,
`nextPointIndex`, `numPathUpdates`, `radius`, `synced`, `haveFullPath`,
`havePartialPath`, `boundingBoxOverride`, both box corners, `owner` and
`searchTime`; the copy also has the source's points and nodes.  The source of
a copy is a const reference and is not written. -/
theorem copy_move_preserve_fields (dst src : IPath) :
    ((copyAssign dst src).hash = src.hash ∧
      (copyAssign dst src).virtualHash = src.virtualHash ∧
      (copyAssign dst src).pathID = src.pathID ∧
      (copyAssign dst src).pathType = src.pathType ∧
      (copyAssign dst src).nextPointIndex = src.nextPointIndex ∧
      (copyAssign dst src).numPathUpdates = src.numPathUpdates ∧
      (copyAssign dst src).radius = src.radius ∧
      (copyAssign dst src).synced = src.synced ∧
      (copyAssign dst src).haveFullPath = src.haveFullPath ∧
      (copyAssign dst src).havePartialPath = src.havePartialPath ∧
      (copyAssign dst src).boundingBoxOverride = src.boundingBoxOverride ∧
      (copyAssign dst src).boundingBoxMins = src.boundingBoxMins ∧
      (copyAssign dst src).boundingBoxMaxs = src.boundingBoxMaxs ∧
      (copyAssign dst src).owner = src.owner ∧
      (copyAssign dst src).searchTime = src.searchTime ∧
      (copyAssign dst src).points = src.points ∧
      (copyAssign dst src).nodes = src.nodes) ∧
    ((moveAssign dst src).1.hash = src.hash ∧
      (moveAssign dst src).1.virtualHash = src.virtualHash ∧
      (moveAssign dst src).1.pathID = src.pathID ∧
      (moveAssign dst src).1.pathType = src.pathType ∧
      (moveAssign dst src).1.nextPointIndex = src.nextPointIndex ∧
      (moveAssign dst src).1.numPathUpdates = src.numPathUpdates ∧
      (moveAssign dst src).1.radius = src.radius ∧
      (moveAssign dst src).1.synced = src.synced ∧
      (moveAssign dst src).1.haveFullPath = src.haveFullPath ∧
      (moveAssign dst src).1.havePartialPath = src.havePartialPath ∧
      (moveAssign dst src).1.boundingBoxOverride = src.boundingBoxOverride ∧
      (moveAssign dst src).1.boundingBoxMins = src.boundingBoxMins ∧
      (moveAssign dst src).1.boundingBoxMaxs = src.boundingBoxMaxs ∧
      (moveAssign dst src).1.owner = src.owner ∧
      (moveAssign dst src).1.searchTime = src.searchTime) ∧
    copyAssign dst src = src ∧ copyConstruct src = src :=
  ⟨⟨rfl, rfl, rfl, rfl, rfl, rfl, rfl, rfl, rfl, rfl, rfl, rfl, rfl, rfl, rfl, rfl, rfl⟩,
    ⟨rfl, rfl, rfl, rfl, rfl, rfl, rfl, rfl, rfl, rfl, rfl, rfl, rfl, rfl, rfl⟩, rfl, rfl⟩

/-! ## `SetPathType` -/

/-- C14 at the failing inputs, with 4 move definitions: on a fresh path
(`pathType = 0`) `SetPathType(99)` returns and stores 99; on the path that now
holds 99 the valid call `SetPathType(1)` fails the assertion. -/
theorem SetPathType_asserts_old_value :
    smallMap.numMoveDefs = 4 ∧
    SetPathType smallMap {} 99 = .ok { pathType := 99 } ∧
    GetPathType { pathType := 99 } = 99 ∧
    SetPathType smallMap { pathType := 99 } 1 = .error .assertion := by
  decide

/-- The assertion of `SetPathType` never reads its argument: the call returns
exactly when the path type held before is below the number of move
definitions, and then stores the argument. -/
theorem SetPathType_eq (g : Globals) (p : IPath) (t : Int) :
    SetPathType g p t =
      if p.pathType < (g.numMoveDefs : Int) then .ok { p with pathType := t }
      else .error .assertion := by
  by_cases h : p.pathType < (g.numMoveDefs : Int) <;>
    simp [SetPathType, assert, bind, Except.bind, pure, Except.pure, h]

/-! ## Node accessors -/

theorem vecGet_set_self {α : Type} (v : List α) (i : Nat) (a : α) (h : i < v.length) :
    vecGet (v.set i a) i = .ok a := by
  rw [vecGet_eq_ok_iff, List.getElem?_set, if_pos rfl, if_pos h]

/-- C15, as stated, fails on `twoNodes`: index 1 reads the last node, but the
indices 2 and 5, at and past the end, are out-of-range accesses of the vector
in `GetNode`, `SetNode` and `SetNodeBoundary`; nothing is clamped. -/
theorem node_index_clamp_counterexample :
    twoNodes.nodes.length = 2 ∧
    GetNode twoNodes 1 = .ok { nodeId := 12 } ∧
    GetNode twoNodes 2 = .error .outOfRange ∧
    GetNode twoNodes 5 = .error .outOfRange ∧
    SetNode twoNodes 2 13 ⟨1, 1⟩ 0 = .error .outOfRange ∧
    SetNodeBoundary twoNodes 2 0 0 8 8 = .error .outOfRange := by
  decide!

/-- C15 (amended): the node accessors use the index as given.  For an index
below the number of nodes, `GetNode(i)` returns the `i`-th node and
`SetNode(i, ...)` / `SetNodeBoundary(i, ...)` write their three / four fields
of the `i`-th node and nothing else; for an index at or past the end all
three are out-of-range accesses of the vector, not accesses of the last
node. -/
theorem node_accessors_unclamped (p : IPath) (i : Nat) :
    (∀ v, p.nodes[i]? = some v →
      GetNode p i = .ok v ∧
      (∀ (nodeId : Nat) (netpoint : float2) (pointIdx : Int),
        SetNode p i nodeId netpoint pointIdx =
          .ok { p with
                nodes := p.nodes.set i
                  { v with netPoint := netpoint, nodeId := nodeId, pathPointIndex := pointIdx } }) ∧
      (∀ xmin zmin xmax zmax : Int,
        SetNodeBoundary p i xmin zmin xmax zmax =
          .ok { p with
                nodes := p.nodes.set i
                  { v with xmin := xmin, zmin := zmin, xmax := xmax, zmax := zmax } })) ∧
    (p.nodes.length ≤ i →
      GetNode p i = .error .outOfRange ∧
      (∀ (nodeId : Nat) (netpoint : float2) (pointIdx : Int),
        SetNode p i nodeId netpoint pointIdx = .error .outOfRange) ∧
      (∀ xmin zmin xmax zmax : Int,
        SetNodeBoundary p i xmin zmin xmax zmax = .error .outOfRange)) := by
  constructor
  · intro v hv
    have hi : i < p.nodes.length := (List.getElem?_eq_some.mp hv).1
    have hg : vecGet p.nodes i = .ok v := (vecGet_eq_ok_iff _ _ _).mpr hv
    refine ⟨hg, ?_, ?_⟩
    · intro nodeId netpoint pointIdx
      simp only [SetNode, hg, vecSet_of_lt, vecGet_set_self, hi, List.length_set, List.set_set,
        bind, Except.bind, pure, Except.pure]
    · intro xmin zmin xmax zmax
      simp only [SetNodeBoundary, hg, vecSet_of_lt, vecGet_set_self, hi, List.length_set,
        List.set_set, bind, Except.bind, pure, Except.pure]
  · intro hi
    have hg : vecGet p.nodes i = .error .outOfRange := vecGet_of_ge _ _ hi
    refine ⟨hg, ?_, ?_⟩
    · intro nodeId netpoint pointIdx
      simp only [SetNode, hg, bind, Except.bind]
    · intro xmin zmin xmax zmax
      simp only [SetNodeBoundary, hg, bind, Except.bind]

/-- The amended C15 on `twoNodes`: index 1 is read and written in place, index
2 is out of range. -/
theorem node_accessors_unclamped_witness :
    (twoNodes.nodes[1]? = some { nodeId := 12 } ∧ twoNodes.nodes.length ≤ 2) ∧
    GetNode twoNodes 1 = .ok { nodeId := 12 } ∧
    SetNodeBoundary twoNodes 1 0 0 8 8 =
      .ok { twoNodes with
            nodes := twoNodes.nodes.set 1 { nodeId := 12, xmin := 0, zmin := 0, xmax := 8, zmax := 8 } } ∧
    GetNode twoNodes 2 = .error .outOfRange :=
  ⟨⟨by decide, by decide⟩,
    ((node_accessors_unclamped twoNodes 1).1 _ (by decide)).1,
    ((node_accessors_unclamped twoNodes 1).1 { nodeId := 12 } (by decide)).2.2 0 0 8 8,
    ((node_accessors_unclamped twoNodes 2).2 (by decide)).1⟩

/-! ## Source and target point -/

/-- C16: on a path with at least 2 points `SetSourcePoint(pt)` returns with
exactly the point at index 0 replaced and `SetTargetPoint(pt)` with exactly
the point at index `NumPoints() - 1` replaced; the length, every other point
and every other member are unchanged, and `GetSourcePoint()` /
`GetTargetPoint()` then return `pt`.  On a path with fewer than 2 points both
fail the assertion. -/
theorem SetSourcePoint_SetTargetPoint_frame (p : IPath) (pt : float3)
    (hlen : p.points.length < UINT_RANGE) :
    (2 ≤ p.points.length →
      ∃ s t, SetSourcePoint p pt = .ok s ∧ SetTargetPoint p pt = .ok t ∧
        (s.points.length = p.points.length ∧ s.points[0]? = some pt ∧
          (∀ j, j ≠ 0 → s.points[j]? = p.points[j]?) ∧
          GetSourcePoint s = .ok pt ∧ s = { p with points := s.points }) ∧
        (t.points.length = p.points.length ∧ t.points[NumPoints p - 1]? = some pt ∧
          (∀ j, j ≠ NumPoints p - 1 → t.points[j]? = p.points[j]?) ∧
          GetTargetPoint t = .ok pt ∧ t = { p with points := t.points })) ∧
    (p.points.length < 2 →
      SetSourcePoint p pt = .error .assertion ∧ SetTargetPoint p pt = .error .assertion) := by
  constructor
  · intro h2
    have ha : assert (p.points.length ≥ 2) = .ok () := (assert_eq_ok_iff _).mpr h2
    have h0 : 0 < p.points.length := by omega
    have hN : NumPoints p = p.points.length := NumPoints_of_lt p hlen
    refine ⟨{ p with points := p.points.set 0 pt },
      { p with points := p.points.set (p.points.length - 1) pt }, ?_, ?_, ?_, ?_⟩
    · simp only [SetSourcePoint, ha, vecSet_of_lt p.points 0 pt h0, bind, Except.bind,
        pure, Except.pure]
    · simp only [SetTargetPoint, ha, size_sub_one h0 hlen,
        vecSet_of_lt p.points (p.points.length - 1) pt (by omega), bind, Except.bind,
        pure, Except.pure]
    · refine ⟨List.length_set _ _ _, ?_, ?_, ?_, rfl⟩
      · show (p.points.set 0 pt)[0]? = _
        rw [List.getElem?_set, if_pos rfl, if_pos h0]
      · intro j hj
        show (p.points.set 0 pt)[j]? = _
        rw [List.getElem?_set, if_neg (fun h => hj h.symm)]
      · exact vecGet_set_self _ _ _ h0
    · rw [hN]
      refine ⟨List.length_set _ _ _, ?_, ?_, ?_, rfl⟩
      · show (p.points.set _ pt)[_]? = _
        rw [List.getElem?_set, if_pos rfl, if_pos (by omega)]
      · intro j hj
        show (p.points.set _ pt)[j]? = _
        rw [List.getElem?_set, if_neg (fun h => hj h.symm)]
      · show vecGet (p.points.set _ pt) _ = _
        rw [List.length_set, size_sub_one h0 hlen]
        exact vecGet_set_self _ _ _ (by omega)
  · intro h2
    have ha : assert (p.points.length ≥ 2) = .error .assertion :=
      (assert_eq_error_iff _ _).mpr ⟨by omega, rfl⟩
    constructor
    · simp only [SetSourcePoint, ha, bind, Except.bind]
    · simp only [SetTargetPoint, ha, bind, Except.bind]

/-- C16 on `twoPoints` (both writers return) and on `farPath`, which has one
point (both fail the assertion). -/
theorem SetSourcePoint_SetTargetPoint_frame_witness :
    (twoPoints.points.length < UINT_RANGE ∧ 2 ≤ twoPoints.points.length ∧
      farPath.points.length < UINT_RANGE ∧ farPath.points.length < 2) ∧
    (∃ s t, SetSourcePoint twoPoints ⟨1, 2, 3⟩ = .ok s ∧
      SetTargetPoint twoPoints ⟨1, 2, 3⟩ = .ok t ∧
      GetSourcePoint s = .ok ⟨1, 2, 3⟩ ∧ GetTargetPoint t = .ok ⟨1, 2, 3⟩) ∧
    SetSourcePoint farPath ⟨1, 2, 3⟩ = .error .assertion ∧
    SetTargetPoint farPath ⟨1, 2, 3⟩ = .error .assertion :=
  ⟨⟨by decide, by decide, by decide, by decide⟩,
    match (SetSourcePoint_SetTargetPoint_frame twoPoints ⟨1, 2, 3⟩ (by decide)).1 (by decide) with
    | ⟨s, t, hs, ht, hsrc, htgt⟩ => ⟨s, t, hs, ht, hsrc.2.2.2.1, htgt.2.2.2.1⟩,
    (SetSourcePoint_SetTargetPoint_frame farPath ⟨1, 2, 3⟩ (by decide)).2 (by decide)⟩

/-! ## What the point operations leave alone -/

/-- A loop whose body preserves the observation `f` preserves `f`. -/
theorem forLoop_preserves {σ β : Type} (f : σ → β) (body : Nat → σ → Except Fault σ)
    (hbody : ∀ n s s', body n s = .ok s' → f s' = f s) :
    ∀ (count i : Nat) (s s' : σ), forLoop body count i s = .ok s' → f s' = f s := by
  intro count
  induction count with
  | zero =>
    intro i s s' h
    simp only [forLoop, Except.ok.injEq] at h
    rw [h]
  | succ count ih =>
    intro i s s' h
    simp only [forLoop] at h
    cases hb : body i s with
    | error e => rw [hb] at h; cases h
    | ok s1 =>
      rw [hb] at h
      exact (ih (i + 1) s1 s' h).trans (hbody i s s1 hb)

/-- A returning `SetPoint` changes `points` only. -/
theorem SetPoint_ok_frame (g : Globals) (p s : IPath) (i : Nat) (pt : float3)
    (h : SetPoint g p i pt = .ok s) : s = { p with points := s.points } := by
  simp only [SetPoint, bind, Except.bind, pure, Except.pure] at h
  cases hc : checkPointInBounds g pt with
  | error e => rw [hc] at h; cases h
  | ok u =>
    rw [hc] at h
    cases hv : vecSet p.points (std.min i (usub (NumPoints p) 1)) pt with
    | error e => rw [hv] at h; cases h
    | ok pts =>
      rw [hv] at h
      cases h
      rfl

/-- A returning `RemovePoint` changes `points` only. -/
theorem RemovePoint_ok_frame (p s : IPath) (k : Nat)
    (h : RemovePoint p k = .ok s) : s = { p with points := s.points } := by
  simp only [RemovePoint, bind, Except.bind, pure, Except.pure] at h
  cases hl : forLoop RemovePoint.body
      (usub (NumPoints p) 1 - std.min k (usub (NumPoints p) 1))
      (std.min k (usub (NumPoints p) 1)) p.points with
  | error e => rw [hl] at h; cases h
  | ok pts =>
    rw [hl] at h
    cases hv : popBack pts with
    | error e => simp only [hv] at h; cases h
    | ok pts' =>
      simp only [hv, Except.ok.injEq] at h
      rw [← h]

/-- A returning `SetSourcePoint` changes `points` only. -/
theorem SetSourcePoint_ok_frame (p s : IPath) (pt : float3)
    (h : SetSourcePoint p pt = .ok s) : s = { p with points := s.points } := by
  simp only [SetSourcePoint, bind, Except.bind, pure, Except.pure] at h
  cases ha : assert (p.points.length ≥ 2) with
  | error e => rw [ha] at h; cases h
  | ok u =>
    rw [ha] at h
    cases hv : vecSet p.points 0 pt with
    | error e => rw [hv] at h; cases h
    | ok pts =>
      rw [hv] at h
      cases h
      rfl

/-- A returning `SetTargetPoint` changes `points` only. -/
theorem SetTargetPoint_ok_frame (p s : IPath) (pt : float3)
    (h : SetTargetPoint p pt = .ok s) : s = { p with points := s.points } := by
  simp only [SetTargetPoint, bind, Except.bind, pure, Except.pure] at h
  cases ha : assert (p.points.length ≥ 2) with
  | error e => rw [ha] at h; cases h
  | ok u =>
    rw [ha] at h
    cases hv : vecSet p.points ((p.points.length + SIZE_RANGE - 1) % SIZE_RANGE) pt with
    | error e => rw [hv] at h; cases h
    | ok pts =>
      rw [hv] at h
      cases h
      rfl

/-- A returning iteration of the copy loop changes `points` only. -/
theorem CopyPoints_body_frame (other : IPath) (n : Nat) (s s' : IPath)
    (h : CopyPoints.body other n s = .ok s') :
    ({ s' with points := [] } : IPath) = { s with points := [] } := by
  simp only [CopyPoints.body, bind, Except.bind, pure, Except.pure] at h
  cases hg : GetPoint other n with
  | error e => rw [hg] at h; cases h
  | ok v =>
    rw [hg] at h
    cases hv : vecSet s.points n v with
    | error e => simp only [hv] at h; cases h
    | ok pts =>
      simp only [hv, Except.ok.injEq] at h
      rw [← h]

/-- A returning `CopyPoints` changes `points` only. -/
theorem CopyPoints_ok_frame (p other s : IPath)
    (h : CopyPoints p other = .ok s) : s = { p with points := s.points } := by
  have hf := forLoop_preserves (fun t : IPath => ({ t with points := [] } : IPath))
    (CopyPoints.body other) (CopyPoints_body_frame other) _ _ _ _ h
  have hs : s = { ({ s with points := [] } : IPath) with points := s.points } := rfl
  rw [hs]
  simp only at hf
  rw [hf]
  rfl

/-! ## `SetBoundingBox()`: cover, exactness, return -/

theorem float.div_nan_right (x : float) : x / float.nan = float.nan := by
  cases x <;> rfl

theorem float.fin_div_fin (a s : ℚ) :
    float.fin a / float.fin s =
      if s = 0 then (if a = 0 then float.nan else if 0 < a then float.pinf else float.ninf)
      else float.round (a / s) := rfl

theorem float.pinf_div_fin (s : ℚ) :
    float.pinf / float.fin s = if 0 ≤ s then float.pinf else float.ninf := rfl

/-- A positive value below a coordinate that passes the extent check passes
the extent check, on a map of non-negative extent: the division by the
converted `SQUARE_SIZE` is monotone. -/
theorem float.div_le_extent {m x d M : float} (hm : 0 < m) (hmx : m ≤ x) (hx : x / d ≤ M)
    (hM : 0 ≤ M) : m / d ≤ M := by
  rw [float.zero_eq] at hm hM
  have hMn : M ≠ .nan := float.ne_nan_of_le_right hM
  cases d with
  | nan =>
    rw [float.div_nan_right] at hx
    exact absurd rfl (float.ne_nan_of_le_left hx)
  | pinf =>
    cases x with
    | fin b =>
      cases m with
      | fin a => exact hM
      | nan => simp [float.lt_def, float.blt] at hm
      | ninf => simp [float.lt_def, float.blt] at hm
      | pinf => simp [float.le_def, float.ble] at hmx
    | nan => exact absurd rfl (float.ne_nan_of_le_right hmx)
    | ninf =>
      have hn : float.ninf / float.pinf = float.nan := rfl
      exact absurd hn (float.ne_nan_of_le_left hx)
    | pinf =>
      have hn : float.pinf / float.pinf = float.nan := rfl
      exact absurd hn (float.ne_nan_of_le_left hx)
  | ninf =>
    cases x with
    | fin b =>
      cases m with
      | fin a => exact hM
      | nan => simp [float.lt_def, float.blt] at hm
      | ninf => simp [float.lt_def, float.blt] at hm
      | pinf => simp [float.le_def, float.ble] at hmx
    | nan => exact absurd rfl (float.ne_nan_of_le_right hmx)
    | ninf =>
      have hn : float.ninf / float.ninf = float.nan := rfl
      exact absurd hn (float.ne_nan_of_le_left hx)
    | pinf =>
      have hn : float.pinf / float.ninf = float.nan := rfl
      exact absurd hn (float.ne_nan_of_le_left hx)
  | fin s =>
    cases m with
    | nan => simp [float.lt_def, float.blt] at hm
    | ninf => simp [float.lt_def, float.blt] at hm
    | pinf =>
      cases x with
      | pinf => exact hx
      | nan => simp [float.le_def, float.ble] at hmx
      | ninf => simp [float.le_def, float.ble] at hmx
      | fin b => simp [float.le_def, float.ble] at hmx
    | fin a =>
      have ha : 0 < a := (float.fin_lt_fin 0 a).mp hm
      rcases lt_trichotomy s 0 with hs | hs | hs
      · have h1 : float.fin a / float.fin s = float.round (a / s) := by
          rw [float.fin_div_fin, if_neg (ne_of_lt hs)]
        rw [h1]
        have h2 : float.round (a / s) ≤ (0 : float) :=
          float.round_le_zero (div_nonpos_of_nonneg_of_nonpos (le_of_lt ha) (le_of_lt hs))
        rw [float.zero_eq] at h2
        exact float.le_trans' h2 hM
      · subst hs
        have h1 : float.fin a / float.fin 0 = float.pinf := by
          rw [float.fin_div_fin, if_pos rfl, if_neg (ne_of_gt ha), if_pos ha]
        have h2 : x / float.fin 0 = float.pinf := by
          cases x with
          | nan => simp [float.le_def, float.ble] at hmx
          | ninf => simp [float.le_def, float.ble] at hmx
          | pinf =>
            rw [float.pinf_div_fin, if_pos (le_refl _)]
          | fin b =>
            have hb : 0 < b := lt_of_lt_of_le ha ((float.fin_le_fin a b).mp hmx)
            rw [float.fin_div_fin, if_pos rfl, if_neg (ne_of_gt hb), if_pos hb]
        rw [h1]
        rw [h2] at hx
        exact hx
      · have h1 : float.fin a / float.fin s = float.round (a / s) := by
          rw [float.fin_div_fin, if_neg (ne_of_gt hs)]
        rw [h1]
        cases x with
        | nan => simp [float.le_def, float.ble] at hmx
        | ninf => simp [float.le_def, float.ble] at hmx
        | pinf =>
          have h2 : float.pinf / float.fin s = float.pinf := by
            rw [float.pinf_div_fin, if_pos (le_of_lt hs)]
          rw [h2] at hx
          have hMp : M = float.pinf := by
            cases M <;> simp [float.le_def, float.ble] at hx ⊢
          rw [hMp]
          have hr := float.round_ne_nan (a / s)
          cases hv : float.round (a / s) <;> simp [float.le_def, float.ble, hv] at hr ⊢
        | fin b =>
          have h2 : float.fin b / float.fin s = float.round (b / s) := by
            rw [float.fin_div_fin, if_neg (ne_of_gt hs)]
          rw [h2] at hx
          have hab : a ≤ b := (float.fin_le_fin a b).mp hmx
          exact float.le_trans'
            (float.round_mono (div_le_div_of_nonneg_right hab (le_of_lt hs))) hx

theorem sentinel_hi_pos : (0 : float) < 1000000 := by decide!

/-- The `mins` coordinate of the scan passes the bounds check when every
scanned coordinate does, on a map of non-negative extent. -/
theorem min_corner_ok (xs : List float) (d M : float) (hM : 0 ≤ M)
    (hne : ∃ x, x ∈ xs) (hall : ∀ x ∈ xs, 0 ≤ x ∧ x / d ≤ M) :
    0 ≤ List.foldl std.min 1000000 xs ∧ List.foldl std.min 1000000 xs / d ≤ M := by
  rcases foldl_min_mem xs 1000000 with h | h
  · obtain ⟨x, hx⟩ := hne
    have hxn : x ≠ .nan := float.ne_nan_of_le_right (hall x hx).1
    have hle : (1000000 : float) ≤ x := by
      have := foldl_min_le_mem xs 1000000 sentinel_hi_ne_nan x hx hxn
      rwa [h] at this
    rw [h]
    exact ⟨float.le_of_lt' sentinel_hi_pos,
      float.div_le_extent sentinel_hi_pos hle (hall x hx).2 hM⟩
  · exact hall _ h

/-- The `maxs` coordinate of the scan passes the bounds check when every
scanned coordinate does. -/
theorem max_corner_ok (xs : List float) (d M : float)
    (hne : ∃ x, x ∈ xs) (hall : ∀ x ∈ xs, 0 ≤ x ∧ x / d ≤ M) :
    0 ≤ List.foldl std.max (-1000000) xs ∧ List.foldl std.max (-1000000) xs / d ≤ M := by
  obtain ⟨x, hx⟩ := hne
  exact hall _ (foldl_max_mem_of_ge xs (-1000000) x hx
    (float.le_trans' sentinel_lo_le_zero (hall x hx).1))

/-- On a non-empty path whose points all pass the bounds check, on a map of
non-negative extent, `SetBoundingBox()` returns. -/
theorem SetBoundingBox_returns (g : Globals) (p : IPath) (hne : 1 ≤ p.points.length)
    (hin : ∀ pt ∈ p.points, checkPointInBounds g pt = .ok ())
    (hx : 0 ≤ g.mapDims.mapx) (hy : 0 ≤ g.mapDims.mapy) :
    ∃ s, SetBoundingBox g p = .ok s := by
  obtain ⟨q, hq⟩ : ∃ q, q ∈ p.points := by
    cases hp : p.points with
    | nil => rw [hp] at hne; simp at hne
    | cons q _ => exact ⟨q, by simp⟩
  have hMx := float.zero_le_ofInt hx
  have hMy := float.zero_le_ofInt hy
  have hallx : ∀ v ∈ p.points.map float3.x,
      0 ≤ v ∧ v / float.ofInt g.SQUARE_SIZE ≤ float.ofInt g.mapDims.mapx := by
    intro v hv
    obtain ⟨pt, hpt, rfl⟩ := List.mem_map.mp hv
    have h := (checkPointInBounds_eq_ok_iff g pt).mp (hin pt hpt)
    exact ⟨h.1, h.2.2.1⟩
  have hallz : ∀ v ∈ p.points.map float3.z,
      0 ≤ v ∧ v / float.ofInt g.SQUARE_SIZE ≤ float.ofInt g.mapDims.mapy := by
    intro v hv
    obtain ⟨pt, hpt, rfl⟩ := List.mem_map.mp hv
    have h := (checkPointInBounds_eq_ok_iff g pt).mp (hin pt hpt)
    exact ⟨h.2.1, h.2.2.2⟩
  have hnx : ∃ v, v ∈ p.points.map float3.x := ⟨q.x, List.mem_map_of_mem _ hq⟩
  have hnz : ∃ v, v ∈ p.points.map float3.z := ⟨q.z, List.mem_map_of_mem _ hq⟩
  have h1 := min_corner_ok _ _ _ hMx hnx hallx
  have h2 := min_corner_ok _ _ _ hMy hnz hallz
  have h3 := max_corner_ok _ _ _ hnx hallx
  have h4 := max_corner_ok _ _ _ hnz hallz
  refine ⟨_, (SetBoundingBox_eq_ok_iff g p _).mpr ⟨?_, ?_, rfl⟩⟩
  · rw [checkPointInBounds_eq_ok_iff]
    exact ⟨h1.1, h2.1, h1.2, h2.2⟩
  · rw [checkPointInBounds_eq_ok_iff]
    exact ⟨h3.1, h4.1, h3.2, h4.2⟩

/-- After a returning `SetBoundingBox()` the box covers every point on X and
Z at every coordinate that is not NaN; only the X and Z of the corners and
the override flag were written. -/
theorem SetBoundingBox_ok_cover (g : Globals) (p s : IPath) (h : SetBoundingBox g p = .ok s) :
    (∀ pt ∈ p.points,
      (pt.x ≠ .nan → s.boundingBoxMins.x ≤ pt.x ∧ pt.x ≤ s.boundingBoxMaxs.x) ∧
      (pt.z ≠ .nan → s.boundingBoxMins.z ≤ pt.z ∧ pt.z ≤ s.boundingBoxMaxs.z)) ∧
    s = { p with
          boundingBoxMins :=
            { p.boundingBoxMins with x := s.boundingBoxMins.x, z := s.boundingBoxMins.z }
          boundingBoxMaxs :=
            { p.boundingBoxMaxs with x := s.boundingBoxMaxs.x, z := s.boundingBoxMaxs.z }
          boundingBoxOverride := false } := by
  obtain ⟨_, _, rfl⟩ := (SetBoundingBox_eq_ok_iff g p s).mp h
  refine ⟨fun pt hpt => ⟨fun hn => ⟨?_, ?_⟩, fun hn => ⟨?_, ?_⟩⟩, rfl⟩
  · exact foldl_min_le_mem _ _ sentinel_hi_ne_nan _ (List.mem_map_of_mem _ hpt) hn
  · exact foldl_max_ge_mem _ _ sentinel_lo_ne_nan _ (List.mem_map_of_mem _ hpt) hn
  · exact foldl_min_le_mem _ _ sentinel_hi_ne_nan _ (List.mem_map_of_mem _ hpt) hn
  · exact foldl_max_ge_mem _ _ sentinel_lo_ne_nan _ (List.mem_map_of_mem _ hpt) hn

/-- After a returning `SetBoundingBox()` on a path with a point whose X is at
most the sentinel `1e6` and a point whose Z is at most `1e6`, each corner
coordinate is attained by a point. -/
theorem SetBoundingBox_ok_attained (g : Globals) (p s : IPath)
    (hsx : ∃ pt ∈ p.points, pt.x ≤ 1000000) (hsz : ∃ pt ∈ p.points, pt.z ≤ 1000000)
    (h : SetBoundingBox g p = .ok s) :
    (∃ pt ∈ p.points, pt.x = s.boundingBoxMins.x) ∧
    (∃ pt ∈ p.points, pt.z = s.boundingBoxMins.z) ∧
    (∃ pt ∈ p.points, pt.x = s.boundingBoxMaxs.x) ∧
    (∃ pt ∈ p.points, pt.z = s.boundingBoxMaxs.z) := by
  obtain ⟨qx, hqx, hqx1⟩ := hsx
  obtain ⟨qz, hqz, hqz1⟩ := hsz
  have hcx := ((SetBoundingBox_ok_cover g p s h).1 qx hqx).1 (float.ne_nan_of_le_left hqx1)
  have hcz := ((SetBoundingBox_ok_cover g p s h).1 qz hqz).2 (float.ne_nan_of_le_left hqz1)
  obtain ⟨hmins, _, rfl⟩ := (SetBoundingBox_eq_ok_iff g p s).mp h
  have hmins0 := (checkPointInBounds_eq_ok_iff g _).mp hmins
  have hq0x : 0 ≤ qx.x := float.le_trans' hmins0.1 hcx.1
  have hq0z : 0 ≤ qz.z := float.le_trans' hmins0.2.1 hcz.1
  obtain ⟨a, ha, hax⟩ := List.mem_map.mp
    (foldl_min_mem_of_le _ 1000000 qx.x (List.mem_map_of_mem float3.x hqx) hqx1)
  obtain ⟨b, hb, hbz⟩ := List.mem_map.mp
    (foldl_min_mem_of_le _ 1000000 qz.z (List.mem_map_of_mem float3.z hqz) hqz1)
  obtain ⟨c, hc, hcx'⟩ := List.mem_map.mp
    (foldl_max_mem_of_ge _ (-1000000) qx.x (List.mem_map_of_mem float3.x hqx)
      (float.le_trans' sentinel_lo_le_zero hq0x))
  obtain ⟨d, hd, hdz⟩ := List.mem_map.mp
    (foldl_max_mem_of_ge _ (-1000000) qz.z (List.mem_map_of_mem float3.z hqz)
      (float.le_trans' sentinel_lo_le_zero hq0z))
  exact ⟨⟨a, ha, hax⟩, ⟨b, hb, hbz⟩, ⟨c, hc, hcx'⟩, ⟨d, hd, hdz⟩⟩

/-- On a path without points `SetBoundingBox()` fails an assertion: the corner
`maxs` still holds the sentinel `-1e6`. -/
theorem SetBoundingBox_empty (g : Globals) (p : IPath) (h0 : p.points.length = 0) :
    checkPointInBounds g { p.boundingBoxMaxs with x := -1000000, z := -1000000 } =
      .error .assertion ∧
    SetBoundingBox g p = .error .assertion := by
  have hnil : p.points = [] := List.length_eq_zero.mp h0
  have hneg : ¬ ((0 : float) ≤ -1000000) := by decide!
  have hmax : checkPointInBounds g { p.boundingBoxMaxs with x := -1000000, z := -1000000 } =
      .error .assertion := by
    rw [checkPointInBounds_eq_error_iff]
    exact fun h => hneg h.1
  refine ⟨hmax, ?_⟩
  rw [SetBoundingBox_eq]
  simp only [hnil, List.map_nil, List.foldl_nil, bind, Except.bind]
  rcases checkPointInBounds_cases g { p.boundingBoxMins with x := 1000000, z := 1000000 }
    with h1 | h1
  · rw [h1, hmax]
  · rw [h1]

/-! ## The box invariant -/

/-- C17, as stated, fails in three reachable states, every call returning.
Stale box: after `AllocPoints(2)`, `SetPoint(0, (8,0,8))`,
`SetPoint(1, (16,0,24))`, `SetBoundingBox()` and `SetPoint(1, (40,0,40))` the
override flag is false and `maxs` is still `(16,_,24)`, below the point
`(40,0,40)`.  Sentinel: after `AllocPoints(1)`,
`SetPoint(0, (2000000,0,2000000))` and `SetBoundingBox()` on `hugeMap` the
flag is false and `mins.x = 1000000` is below the only point.  NaN: after
`AllocPoints(2)`, `SetPoint(1, (16,0,24))`, `SetSourcePoint((NaN,0,NaN))` and
`SetBoundingBox()` the flag is false and `mins.x <= x` is false at the first
point. -/
theorem stale_box_counterexample :
    (SetPoint smallMap (AllocPoints {} 2) 0 ⟨8, 0, 8⟩ =
        .ok { points := [⟨8, 0, 8⟩, ⟨0, 0, 0⟩] } ∧
      SetPoint smallMap { points := [⟨8, 0, 8⟩, ⟨0, 0, 0⟩] } 1 ⟨16, 0, 24⟩ = .ok twoPoints ∧
      SetBoundingBox smallMap twoPoints = .ok twoPointsBoxed ∧
      SetPoint smallMap twoPointsBoxed 1 ⟨40, 0, 40⟩ = .ok stalePath ∧
      IsBoundingBoxOverriden stalePath = false ∧
      GetBoundingBoxMaxs stalePath = ⟨16, 0, 24⟩ ∧
      GetPoint stalePath 1 = .ok ⟨40, 0, 40⟩ ∧
      ¬ (∀ pt ∈ stalePath.points, pt.x ≤ (GetBoundingBoxMaxs stalePath).x)) ∧
    (SetPoint hugeMap (AllocPoints {} 1) 0 ⟨2000000, 0, 2000000⟩ = .ok farPath ∧
      SetBoundingBox hugeMap farPath =
        .ok { farPath with
              boundingBoxMins := ⟨1000000, 0, 1000000⟩
              boundingBoxMaxs := ⟨2000000, 0, 2000000⟩ } ∧
      IsBoundingBoxOverriden
        { farPath with
          boundingBoxMins := ⟨1000000, 0, 1000000⟩
          boundingBoxMaxs := ⟨2000000, 0, 2000000⟩ } = false ∧
      (∀ pt ∈ farPath.points, (1000000 : float) < pt.x)) ∧
    (SetPoint smallMap (AllocPoints {} 2) 1 ⟨16, 0, 24⟩ =
        .ok { points := [⟨0, 0, 0⟩, ⟨16, 0, 24⟩] } ∧
      SetSourcePoint { points := [⟨0, 0, 0⟩, ⟨16, 0, 24⟩] } ⟨.nan, 0, .nan⟩ = .ok nanPath ∧
      SetBoundingBox smallMap nanPath =
        .ok { nanPath with boundingBoxMins := ⟨16, 0, 24⟩, boundingBoxMaxs := ⟨16, 0, 24⟩ } ∧
      IsBoundingBoxOverriden
        { nanPath with boundingBoxMins := ⟨16, 0, 24⟩, boundingBoxMaxs := ⟨16, 0, 24⟩ } = false ∧
      ¬ (∀ pt ∈ nanPath.points, (16 : float) ≤ pt.x)) := by
  decide!

/-- C17 (amended): the box is established by the two `SetBoundingBox`
variants and is not maintained by the point operations.  After a returning
`SetBoundingBox(mins, maxs)` the override flag is true.  After a returning
`SetBoundingBox()` on a path none of whose X and Z is NaN, with a point whose
X is at most `1e6` and a point whose Z is at most `1e6`, the flag is false
and the box's X and Z are exactly the minimum and maximum of the current
points.  `AllocPoints`, `SetPoint`, `RemovePoint`, `SetSourcePoint`,
`SetTargetPoint` and `CopyPoints` leave both corners and the flag as they
were.  Copy and move give the destination the source's points, corners and
flag together. -/
theorem box_established_not_maintained (g : Globals) (p : IPath) :
    (∀ mins maxs s, SetBoundingBoxTo g p mins maxs = .ok s →
      IsBoundingBoxOverriden s = true) ∧
    (p.points.length < UINT_RANGE →
      (∀ pt ∈ p.points, pt.x ≠ .nan ∧ pt.z ≠ .nan) →
      (∃ pt ∈ p.points, pt.x ≤ 1000000) → (∃ pt ∈ p.points, pt.z ≤ 1000000) →
      ∀ s, SetBoundingBox g p = .ok s →
        IsBoundingBoxOverriden s = false ∧
        (∃ pt ∈ s.points, pt.x = s.boundingBoxMins.x) ∧
        (∀ pt ∈ s.points, s.boundingBoxMins.x ≤ pt.x) ∧
        (∃ pt ∈ s.points, pt.z = s.boundingBoxMins.z) ∧
        (∀ pt ∈ s.points, s.boundingBoxMins.z ≤ pt.z) ∧
        (∃ pt ∈ s.points, pt.x = s.boundingBoxMaxs.x) ∧
        (∀ pt ∈ s.points, pt.x ≤ s.boundingBoxMaxs.x) ∧
        (∃ pt ∈ s.points, pt.z = s.boundingBoxMaxs.z) ∧
        (∀ pt ∈ s.points, pt.z ≤ s.boundingBoxMaxs.z)) ∧
    (∀ n, (AllocPoints p n).boundingBoxMins = p.boundingBoxMins ∧
      (AllocPoints p n).boundingBoxMaxs = p.boundingBoxMaxs ∧
      (AllocPoints p n).boundingBoxOverride = p.boundingBoxOverride) ∧
    (∀ i pt s, SetPoint g p i pt = .ok s →
      s.boundingBoxMins = p.boundingBoxMins ∧ s.boundingBoxMaxs = p.boundingBoxMaxs ∧
      s.boundingBoxOverride = p.boundingBoxOverride) ∧
    (∀ k s, RemovePoint p k = .ok s →
      s.boundingBoxMins = p.boundingBoxMins ∧ s.boundingBoxMaxs = p.boundingBoxMaxs ∧
      s.boundingBoxOverride = p.boundingBoxOverride) ∧
    (∀ pt s, SetSourcePoint p pt = .ok s →
      s.boundingBoxMins = p.boundingBoxMins ∧ s.boundingBoxMaxs = p.boundingBoxMaxs ∧
      s.boundingBoxOverride = p.boundingBoxOverride) ∧
    (∀ pt s, SetTargetPoint p pt = .ok s →
      s.boundingBoxMins = p.boundingBoxMins ∧ s.boundingBoxMaxs = p.boundingBoxMaxs ∧
      s.boundingBoxOverride = p.boundingBoxOverride) ∧
    (∀ other s, CopyPoints p other = .ok s →
      s.boundingBoxMins = p.boundingBoxMins ∧ s.boundingBoxMaxs = p.boundingBoxMaxs ∧
      s.boundingBoxOverride = p.boundingBoxOverride) ∧
    (∀ src, (copyAssign p src).points = src.points ∧
      (copyAssign p src).boundingBoxMins = src.boundingBoxMins ∧
      (copyAssign p src).boundingBoxMaxs = src.boundingBoxMaxs ∧
      (copyAssign p src).boundingBoxOverride = src.boundingBoxOverride) ∧
    (∀ src, (moveAssign p src).1.points = src.points ∧
      (moveAssign p src).1.boundingBoxMins = src.boundingBoxMins ∧
      (moveAssign p src).1.boundingBoxMaxs = src.boundingBoxMaxs ∧
      (moveAssign p src).1.boundingBoxOverride = src.boundingBoxOverride) := by
  have frame : ∀ s : IPath, s = { p with points := s.points } →
      s.boundingBoxMins = p.boundingBoxMins ∧ s.boundingBoxMaxs = p.boundingBoxMaxs ∧
      s.boundingBoxOverride = p.boundingBoxOverride := by
    intro s hs
    rw [hs]
    exact ⟨rfl, rfl, rfl⟩
  refine ⟨?_, ?_, fun n => ⟨rfl, rfl, rfl⟩, ?_, ?_, ?_, ?_, ?_,
    fun src => ⟨rfl, rfl, rfl, rfl⟩, fun src => ⟨rfl, rfl, rfl, rfl⟩⟩
  · intro mins maxs s hs
    simp only [SetBoundingBoxTo, bind, Except.bind, pure, Except.pure] at hs
    rcases checkPointInBounds_cases g mins with h1 | h1
    · rcases checkPointInBounds_cases g maxs with h2 | h2
      · simp only [h1, h2, Except.ok.injEq] at hs
        rw [← hs]
        rfl
      · simp only [h1, h2] at hs
        cases hs
    · simp only [h1] at hs
      cases hs
  · intro _ hnan hsx hsz s hs
    have hcov := SetBoundingBox_ok_cover g p s hs
    have hatt := SetBoundingBox_ok_attained g p s hsx hsz hs
    have hpts : s.points = p.points := by rw [hcov.2]
    have hov : IsBoundingBoxOverriden s = false := by rw [hcov.2]; rfl
    rw [hpts]
    exact ⟨hov, hatt.1, fun pt h => ((hcov.1 pt h).1 (hnan pt h).1).1, hatt.2.1,
      fun pt h => ((hcov.1 pt h).2 (hnan pt h).2).1, hatt.2.2.1,
      fun pt h => ((hcov.1 pt h).1 (hnan pt h).1).2, hatt.2.2.2,
      fun pt h => ((hcov.1 pt h).2 (hnan pt h).2).2⟩
  · exact fun i pt s hs => frame s (SetPoint_ok_frame g p s i pt hs)
  · exact fun k s hs => frame s (RemovePoint_ok_frame p s k hs)
  · exact fun pt s hs => frame s (SetSourcePoint_ok_frame p s pt hs)
  · exact fun pt s hs => frame s (SetTargetPoint_ok_frame p s pt hs)
  · exact fun other s hs => frame s (CopyPoints_ok_frame p other s hs)

/-- The amended C17 on `twoPoints`: `SetBoundingBox()` establishes the box
`(8,_,8)`-`(16,_,24)`, and the following `SetPoint(1, (40,0,40))` leaves it
as it was. -/
theorem box_established_not_maintained_witness :
    (twoPoints.points.length < UINT_RANGE ∧
      (∀ pt ∈ twoPoints.points, pt.x ≠ .nan ∧ pt.z ≠ .nan) ∧
      (∃ pt ∈ twoPoints.points, pt.x ≤ 1000000) ∧
      (∃ pt ∈ twoPoints.points, pt.z ≤ 1000000) ∧
      SetBoundingBox smallMap twoPoints = .ok twoPointsBoxed ∧
      SetPoint smallMap twoPointsBoxed 1 ⟨40, 0, 40⟩ = .ok stalePath) ∧
    (∀ pt ∈ twoPointsBoxed.points, pt.x ≤ twoPointsBoxed.boundingBoxMaxs.x) ∧
    stalePath.boundingBoxMaxs = twoPointsBoxed.boundingBoxMaxs ∧
    stalePath.boundingBoxOverride = twoPointsBoxed.boundingBoxOverride :=
  have hbox : SetBoundingBox smallMap twoPoints = .ok twoPointsBoxed := by decide!
  have hset : SetPoint smallMap twoPointsBoxed 1 ⟨40, 0, 40⟩ = .ok stalePath := by decide!
  ⟨⟨by decide, by decide!, by decide!, by decide!, hbox, hset⟩,
    ((box_established_not_maintained smallMap twoPoints).2.1 (by decide) (by decide!)
      (by decide!) (by decide!) _ hbox).2.2.2.2.2.2.1,
    ((box_established_not_maintained smallMap twoPointsBoxed).2.2.2.1 _ _ _ hset).2.1,
    ((box_established_not_maintained smallMap twoPointsBoxed).2.2.2.1 _ _ _ hset).2.2⟩

/-- C18, as stated, fails on `nanPath`, reached by the unchecked
`SetSourcePoint((NaN,0,NaN))` on a path with the second point `(16,0,24)`:
`std::min`/`std::max` never select NaN, both bounds checks pass, the call
returns with the box `(16,_,24)`-`(16,_,24)`, and `mins.x <= x` is false at
the first point. -/
theorem SetBoundingBox_nan_counterexample :
    SetSourcePoint { points := [⟨0, 0, 0⟩, ⟨16, 0, 24⟩] } ⟨.nan, 0, .nan⟩ = .ok nanPath ∧
    SetBoundingBox smallMap nanPath =
      .ok { nanPath with boundingBoxMins := ⟨16, 0, 24⟩, boundingBoxMaxs := ⟨16, 0, 24⟩ } ∧
    GetPoint nanPath 0 = .ok ⟨.nan, 0, .nan⟩ ∧
    ¬ ((16 : float) ≤ float.nan) ∧
    ¬ (∀ pt ∈ nanPath.points, (16 : float) ≤ pt.x ∧ pt.x ≤ 16 ∧
        (24 : float) ≤ pt.z ∧ pt.z ≤ 24) := by
  decide!

/-- C18 (amended): for every path, with no assumption on the magnitude of its
coordinates, after a returning `SetBoundingBox()` the box covers every point
on X and Z at every coordinate that is not NaN: `mins.x <= x <= maxs.x`
unless `x` is NaN, `mins.z <= z <= maxs.z` unless `z` is NaN.  The Y
components of both corners, the points and every other member except
`boundingBoxOverride` (now false) are unchanged.  The call returns on every
non-empty path whose points pass the bounds check, on a map of non-negative
extent. -/
theorem SetBoundingBox_covers (g : Globals) (p : IPath)
    (hlen : p.points.length < UINT_RANGE) :
    (∀ s, SetBoundingBox g p = .ok s →
      (∀ pt ∈ s.points,
        (pt.x ≠ .nan → s.boundingBoxMins.x ≤ pt.x ∧ pt.x ≤ s.boundingBoxMaxs.x) ∧
        (pt.z ≠ .nan → s.boundingBoxMins.z ≤ pt.z ∧ pt.z ≤ s.boundingBoxMaxs.z)) ∧
      s.boundingBoxMins.y = p.boundingBoxMins.y ∧
      s.boundingBoxMaxs.y = p.boundingBoxMaxs.y ∧
      s.points = p.points ∧
      s = { p with
            boundingBoxMins := s.boundingBoxMins
            boundingBoxMaxs := s.boundingBoxMaxs
            boundingBoxOverride := false }) ∧
    (1 ≤ p.points.length → (∀ pt ∈ p.points, checkPointInBounds g pt = .ok ()) →
      0 ≤ g.mapDims.mapx → 0 ≤ g.mapDims.mapy → ∃ s, SetBoundingBox g p = .ok s) := by
  have _ := hlen
  refine ⟨fun s hs => ?_, fun hne hin hx hy => SetBoundingBox_returns g p hne hin hx hy⟩
  have hcov := (SetBoundingBox_ok_cover g p s hs).1
  obtain ⟨_, _, hs'⟩ := (SetBoundingBox_eq_ok_iff g p s).mp hs
  subst hs'
  exact ⟨hcov, rfl, rfl, rfl, rfl⟩

/-- The amended C18 on `farPath` and `hugeMap`, a point beyond the sentinel
`1e6`: the call returns and the box
`(1000000,_,1000000)`-`(2000000,_,2000000)` covers the point; and on
`nanPath`, where the second point `(16,0,24)` is covered. -/
theorem SetBoundingBox_covers_witness :
    (farPath.points.length < UINT_RANGE ∧ 1 ≤ farPath.points.length ∧
      (∀ pt ∈ farPath.points, checkPointInBounds hugeMap pt = .ok ()) ∧
      0 ≤ hugeMap.mapDims.mapx ∧ 0 ≤ hugeMap.mapDims.mapy ∧
      nanPath.points.length < UINT_RANGE) ∧
    (∃ s, SetBoundingBox hugeMap farPath = .ok s) ∧
    (∀ pt ∈ farPath.points,
      (pt.x ≠ .nan → (1000000 : float) ≤ pt.x ∧ pt.x ≤ 2000000) ∧
      (pt.z ≠ .nan → (1000000 : float) ≤ pt.z ∧ pt.z ≤ 2000000)) ∧
    (∀ pt ∈ nanPath.points,
      (pt.x ≠ .nan → (16 : float) ≤ pt.x ∧ pt.x ≤ 16) ∧
      (pt.z ≠ .nan → (24 : float) ≤ pt.z ∧ pt.z ≤ 24)) :=
  have hs : SetBoundingBox hugeMap farPath =
      .ok { farPath with
            boundingBoxMins := ⟨1000000, 0, 1000000⟩
            boundingBoxMaxs := ⟨2000000, 0, 2000000⟩ } := by decide!
  have hn : SetBoundingBox smallMap nanPath =
      .ok { nanPath with boundingBoxMins := ⟨16, 0, 24⟩, boundingBoxMaxs := ⟨16, 0, 24⟩ } := by
    decide!
  ⟨⟨by decide, by decide, by decide!, by decide, by decide, by decide⟩,
    (SetBoundingBox_covers hugeMap farPath (by decide)).2 (by decide) (by decide!) (by decide)
      (by decide),
    ((SetBoundingBox_covers hugeMap farPath (by decide)).1 _ hs).1,
    ((SetBoundingBox_covers smallMap nanPath (by decide)).1 _ hn).1⟩

/-- C19: for every path all of whose points pass the bounds check, on a map
with `mapx, mapy ≥ 0`, `SetBoundingBox()` returns if and only if the path has
at least one point.  On a path with zero points the scan runs no iteration
and leaves the corners at the sentinels `mins.x = mins.z = 1e6`,
`maxs.x = maxs.z = -1e6`; the bounds check of that `maxs` fails, and the call
fails an assertion. -/
theorem SetBoundingBox_returns_iff_nonempty (g : Globals) (p : IPath)
    (hlen : p.points.length < UINT_RANGE)
    (hin : ∀ pt ∈ p.points, checkPointInBounds g pt = .ok ())
    (hx : 0 ≤ g.mapDims.mapx) (hy : 0 ≤ g.mapDims.mapy) :
    ((∃ s, SetBoundingBox g p = .ok s) ↔ 1 ≤ p.points.length) ∧
    (p.points.length = 0 →
      forLoop SetBoundingBox.body p.points.length 0
          { p with
            boundingBoxMins := { p.boundingBoxMins with x := 1000000, z := 1000000 }
            boundingBoxMaxs := { p.boundingBoxMaxs with x := -1000000, z := -1000000 } } =
        .ok { p with
              boundingBoxMins := { p.boundingBoxMins with x := 1000000, z := 1000000 }
              boundingBoxMaxs := { p.boundingBoxMaxs with x := -1000000, z := -1000000 } } ∧
      checkPointInBounds g { p.boundingBoxMaxs with x := -1000000, z := -1000000 } =
        .error .assertion ∧
      SetBoundingBox g p = .error .assertion) := by
  have _ := hlen
  constructor
  · constructor
    · rintro ⟨s, hs⟩
      by_contra hcon
      have h0 : p.points.length = 0 := by omega
      rw [(SetBoundingBox_empty g p h0).2] at hs
      cases hs
    · intro hne
      exact SetBoundingBox_returns g p hne hin hx hy
  · intro h0
    refine ⟨?_, SetBoundingBox_empty g p h0⟩
    rw [h0]
    rfl

/-- C19 on the empty path (the call fails) and on `threePoints` (the call
returns), both on `smallMap`. -/
theorem SetBoundingBox_returns_iff_nonempty_witness :
    (({} : IPath).points.length < UINT_RANGE ∧
      (∀ pt ∈ ({} : IPath).points, checkPointInBounds smallMap pt = .ok ()) ∧
      threePoints.points.length < UINT_RANGE ∧
      (∀ pt ∈ threePoints.points, checkPointInBounds smallMap pt = .ok ()) ∧
      0 ≤ smallMap.mapDims.mapx ∧ 0 ≤ smallMap.mapDims.mapy) ∧
    SetBoundingBox smallMap {} = .error .assertion ∧
    (∃ s, SetBoundingBox smallMap threePoints = .ok s) :=
  ⟨⟨by decide, by decide, by decide, by decide!, by decide, by decide⟩,
    ((SetBoundingBox_returns_iff_nonempty smallMap {} (by decide) (by decide) (by decide)
      (by decide)).2 (by decide)).2.2,
    (SetBoundingBox_returns_iff_nonempty smallMap threePoints (by decide) (by decide!)
      (by decide) (by decide)).1.mpr (by decide)⟩

/-! ## The clamped index on an empty path -/

/-- C20: the index `std::min(i, NumPoints() - 1)` of `GetPoint`, `SetPoint`
and `RemovePoint` is a valid position for every `unsigned int` `i` if and
only if the path has at least one point.  On a path with zero points
`NumPoints() - 1` is `2^32 - 1`, the index is `i` itself, and `GetPoint(i)`,
`SetPoint(i, pt)` (for a point that passes the bounds check) and
`RemovePoint(i)` are out-of-range accesses. -/
theorem clamped_index_valid_iff_nonempty (p : IPath)
    (hlen : p.points.length < UINT_RANGE) :
    ((∀ i, i < UINT_RANGE → std.min i (usub (NumPoints p) 1) < NumPoints p) ↔
      1 ≤ p.points.length) ∧
    (p.points.length = 0 →
      usub (NumPoints p) 1 = 2 ^ 32 - 1 ∧
      ∀ i, i < UINT_RANGE →
        std.min i (usub (NumPoints p) 1) = i ∧
        GetPoint p i = .error .outOfRange ∧
        (∀ (g : Globals) (pt : float3), checkPointInBounds g pt = .ok () →
          SetPoint g p i pt = .error .outOfRange) ∧
        RemovePoint p i = .error .outOfRange) := by
  have hN : NumPoints p = p.points.length := NumPoints_of_lt p hlen
  constructor
  · constructor
    · intro h
      have h0 := h 0 (by decide)
      rw [hN] at h0
      omega
    · intro hne i _
      rw [clamp_eq p i hne hlen, hN]
      omega
  · intro h0
    have hnil : p.points = [] := List.length_eq_zero.mp h0
    have hu : usub (NumPoints p) 1 = 4294967295 := by
      rw [hN, h0]
      decide
    refine ⟨by rw [hu]; norm_num, ?_⟩
    intro i hi
    have hi' : i < 4294967296 := hi
    have hmin : std.min i (usub (NumPoints p) 1) = i := by
      rw [hu, std_min_nat]
      omega
    refine ⟨hmin, ?_, ?_, ?_⟩
    · rw [GetPoint, hmin]
      exact vecGet_of_ge _ _ (by omega)
    · intro g pt hpt
      simp only [SetPoint, hpt, hmin, bind, Except.bind]
      simp [vecSet, hnil]
    · have hmin' : std.min i 4294967295 = i := by
        rw [std_min_nat]
        omega
      simp only [RemovePoint, hu, hmin', bind, Except.bind]
      cases hc : 4294967295 - i with
      | zero =>
        simp [forLoop, popBack, hnil]
      | succ c =>
        simp [forLoop, RemovePoint.body, vecGet, hnil, bind, Except.bind]

/-- C20 on the empty path (index 7 is not clamped and every access is out of
range) and on `threePoints` (index 7 clamps to a valid position). -/
theorem clamped_index_valid_iff_nonempty_witness :
    (({} : IPath).points.length < UINT_RANGE ∧ ({} : IPath).points.length = 0 ∧
      7 < UINT_RANGE ∧ threePoints.points.length < UINT_RANGE ∧
      1 ≤ threePoints.points.length) ∧
    std.min 7 (usub (NumPoints {}) 1) = 7 ∧
    GetPoint {} 7 = .error .outOfRange ∧
    RemovePoint {} 7 = .error .outOfRange ∧
    std.min 7 (usub (NumPoints threePoints) 1) < NumPoints threePoints :=
  have h := (clamped_index_valid_iff_nonempty {} (by decide)).2 (by decide)
  ⟨⟨by decide, by decide, by decide, by decide, by decide⟩,
    (h.2 7 (by decide)).1, (h.2 7 (by decide)).2.1, (h.2 7 (by decide)).2.2.2,
    (clamped_index_valid_iff_nonempty threePoints (by decide)).1.mpr (by decide) 7 (by decide)⟩

end QTPFS
